import Mathlib

/-!
# Shallow embedding of `router/transfer_online_reliable_message.go`

The Go package `router` is embedded as pure Lean functions.

* Go `string` is Lean `String`; `len(s)` is the UTF-8 byte size.
* Go `int`, `int32`, `int64` are `Int`; the places where the 64-bit range is
  observable (`strconv.ParseInt`, `strconv.Atoi`) carry the range checks of the
  Go library explicitly.
* A Go `error` is a `GoError` carrying the text of `Error()`.
* A pointer that the source tests against `nil` is an `Option`; a pointer it
  only dereferences (the request, the wrappers and their `UA`, the overrides)
  is the value it points to. Slices are lists; a `map[string]string` is an
  association list read with `List.lookup`.
* The collaborators held by `RouterServer` (`Store`, `router`, `MsgDB`) and the
  `Connector` handles are interfaces in the source: their behaviour is a
  parameter (`Env`), threaded through an explicit state, and every call made
  on them is recorded in a list of `Call`s.
* The two goroutines started by `TransferOnlineReliableMessage` are returned as
  task descriptions and run by `runPersist` and `runFanOut`.
* `processPush` is given twice: on values, and with its `*I18N` pointers as
  addresses of a heap (`processPushAt`), to state what it leaves untouched.
* `Applog` only prints; it is left out.
-/

namespace Router

/-! ## Constants -/

def RedisFailCode : Int := -1
def ReliableMsgSeqPre : String := "msg_seq_"
def RedisInterval : String := "_"
def SeqExpireSeconds : Int := 10
def DefaultLocale : String := "en-US"

/-! ## Go library functions used by the package -/

/-- Go `error` value, identified by the text `Error()` returns. -/
structure GoError where
  msg : String
  deriving DecidableEq, Repr

deriving instance DecidableEq for Except

/-- Go `errors.New`. -/
def errorsNew (s : String) : GoError := ⟨s⟩

/-- Go builtin `len` on a string: the number of bytes. -/
def len (s : String) : Nat := s.utf8ByteSize

/-- The two failure kinds of `strconv` (`ErrSyntax`, `ErrRange`). -/
inductive NumError where
  | ErrSyntax
  | ErrRange
  deriving DecidableEq, Repr

def maxUint64 : Nat := 2 ^ 64 - 1
def maxInt64 : Int := 2 ^ 63 - 1
def minInt64 : Int := -(2 ^ 63)

/-- Loop of `strconv.ParseUint(s, 10, 64)`: `n` is the value read so far. A
byte that is not a decimal digit is a syntax error; the two overflow tests
return `maxVal` with a range error as soon as they fire. -/
def parseUintLoop : List Char → Nat → Nat × Option NumError
  | [], n => (n, none)
  | c :: cs, n =>
    if '0' ≤ c ∧ c ≤ '9' then
      if n ≥ maxUint64 / 10 + 1 then (maxUint64, some .ErrRange)
      else
        let n1 := n * 10 + (c.toNat - '0'.toNat)
        if n1 > maxUint64 then (maxUint64, some .ErrRange)
        else parseUintLoop cs n1
    else (0, some .ErrSyntax)

/-- Go `strconv.ParseUint(s, 10, 64)`. -/
def ParseUint (s : List Char) : Nat × Option NumError :=
  if s = [] then (0, some .ErrSyntax) else parseUintLoop s 0

/-- The part of `strconv.ParseInt(s, 10, 64)` after the sign is removed. -/
def parseIntSigned (neg : Bool) (digits : List Char) : Int × Option NumError :=
  match ParseUint digits with
  | (_, some .ErrSyntax) => (0, some .ErrSyntax)
  | (un, _) =>
    if !neg ∧ un ≥ 2 ^ 63 then (maxInt64, some .ErrRange)
    else if neg ∧ un > 2 ^ 63 then (minInt64, some .ErrRange)
    else (if neg then -(un : Int) else (un : Int), none)

/-- Go `strconv.ParseInt(s, 10, 64)`: the value and the error, both returned
also on failure (0 on a syntax error, the nearest bound on a range error). -/
def ParseInt (s : String) : Int × Option NumError :=
  match s.toList with
  | [] => (0, some .ErrSyntax)
  | '+' :: rest => parseIntSigned false rest
  | '-' :: rest => parseIntSigned true rest
  | cs => parseIntSigned false cs

/-- Go `strconv.Atoi` on a 64-bit platform. Its fast path (fewer than 19
bytes) and its slow path (`ParseInt(s, 10, 0)`) give the same value and the
same kind of error, so it is `ParseInt`. -/
def Atoi (s : String) : Int × Option NumError := ParseInt s

/-- Decimal digits of a natural number, most significant first. -/
def decimal (n : Nat) : List Char := Nat.toDigits 10 n

/-- Digits left-padded with `'0'` to at least `width` characters. -/
def zeroPad (width : Nat) (ds : List Char) : List Char :=
  List.replicate (width - ds.length) '0' ++ ds

/-- Go `fmt.Sprintf("%d", x)`. -/
def sprintfD (x : Int) : String :=
  if x < 0 then String.mk ('-' :: decimal x.natAbs) else String.mk (decimal x.natAbs)

/-- Go `fmt.Sprintf("%04d", x)`: the sign counts in the width of 4. -/
def sprintf04d (x : Int) : String :=
  if x < 0 then String.mk ('-' :: zeroPad 3 (decimal x.natAbs))
  else String.mk (zeroPad 4 (decimal x.natAbs))

/-- Go `time.Time` value as far as the package reads it: `Unix()` and the
calendar fields that `Format` prints, in the location of the value. -/
structure Time where
  unix : Int
  year : Int
  month : Nat
  day : Nat
  hour : Nat
  minute : Nat
  second : Nat
  deriving DecidableEq, Repr

/-- Go `appendInt(b, x, width)` of package `time`. -/
def appendInt (x : Int) (width : Nat) : String :=
  if x < 0 then String.mk ('-' :: zeroPad width (decimal x.natAbs))
  else String.mk (zeroPad width (decimal x.natAbs))

/-- Go `tm.Format("20060102150405")`. -/
def Time.Format20060102150405 (tm : Time) : String :=
  appendInt tm.year 4 ++ appendInt tm.month 2 ++ appendInt tm.day 2 ++
    appendInt tm.hour 2 ++ appendInt tm.minute 2 ++ appendInt tm.second 2

/-- The directives of `fmt.Sprintf` with string operands that are modelled:
literal text, `%%`, and the verbs `%s` and `%v` without flags, width,
precision or argument index. A missing operand prints `%!s(MISSING)`, a
trailing `%` prints `%!(NOVERB)`, operands left over are listed by
`extraOperands`. Any other directive gives `none`. -/
def sprintfPlain : List Char → List String → Option (List Char)
  | [], _ => some []
  | ['%'], _ => some "%!(NOVERB)".toList
  | '%' :: '%' :: cs, args => (sprintfPlain cs args).map fun r => '%' :: r
  | '%' :: 's' :: cs, [] => (sprintfPlain cs []).map fun r => "%!s(MISSING)".toList ++ r
  | '%' :: 's' :: cs, a :: as => (sprintfPlain cs as).map fun r => a.toList ++ r
  | '%' :: 'v' :: cs, [] => (sprintfPlain cs []).map fun r => "%!v(MISSING)".toList ++ r
  | '%' :: 'v' :: cs, a :: as => (sprintfPlain cs as).map fun r => a.toList ++ r
  | '%' :: _ :: _, _ => none
  | c :: cs, args => (sprintfPlain cs args).map fun r => c :: r

/-- Number of operands a format of the modelled fragment consumes. -/
def verbCount : List Char → Nat
  | [] => 0
  | ['%'] => 0
  | '%' :: '%' :: cs => verbCount cs
  | '%' :: _ :: cs => verbCount cs + 1
  | _ :: cs => verbCount cs

/-- Text `fmt` appends for operands no directive has used:
`%!(EXTRA string=a, string=b)`. -/
def extraOperands (args : List String) : String :=
  if args = [] then ""
  else "%!(EXTRA " ++ ", ".intercalate (args.map fun a => "string=" ++ a) ++ ")"

/-- Go `fmt.Sprintf(format, a...)` where every operand is a string. Formats
outside the fragment of `sprintfPlain` are left to `other`, the rest of the
library. -/
def Sprintf (other : String → List String → String) (format : String)
    (args : List String) : String :=
  match sprintfPlain format.toList args with
  | some r => String.mk r ++ extraOperands (args.drop (verbCount format.toList))
  | none => other format args

/-- Go `fmt.Errorf("msgId is empty when transfer msg, uid: %+v", uid)`: with a
string operand `%+v` prints the operand. -/
def errorfUid (uid : String) : GoError :=
  ⟨"msgId is empty when transfer msg, uid: " ++ uid⟩

/-- Go `[]byte`. -/
abbrev Bytes := List Nat

/-! ## Types of the package -/

/-- Go `Any`: the mock of the protobuf `Any`. -/
structure Any where
  TypeUrl : String
  Value : Bytes
  deriving DecidableEq, Repr

structure ServiceConfig where
  DisableSendReliable : Bool
  IsNeedTTDB : Bool
  IsStoreReliableMsg : Bool
  DisablePingProcess : Bool
  deriving DecidableEq, Repr

/-- Go `config`; the source reads it through the global `Get()`. -/
structure Config where
  Service : ServiceConfig
  deriving DecidableEq, Repr

/-- Go `(*config).AppIndex`. -/
def Config.AppIndex (_c : Config) (_appName : String) : Int := 0

/-- Go `ClientSourceEnum`, an `int32`. -/
abbrev ClientSourceEnum := Int

def CLIENT_SOURCE_ANDROID : ClientSourceEnum := 1
def CLIENT_SOURCE_IOS : ClientSourceEnum := 2

structure I18N where
  Value : String
  Locales : List (String × String)
  Params : List String
  deriving DecidableEq, Repr

structure PushContent where
  Title : Option I18N
  Value : Option I18N
  Ticker : Option I18N
  Message : String
  CreateTime : Int
  deriving DecidableEq, Repr

/-- Go composite literal `PushContent{}`. -/
def PushContent.zero : PushContent := ⟨none, none, none, "", 0⟩

structure ChatMsg where
  Ticker : String
  Message : String
  deriving DecidableEq, Repr

structure UserAgent where
  Source : ClientSourceEnum
  AppVersion : String
  AppUIVersion : String
  deriving DecidableEq, Repr

structure TransmitMessageRequest where
  UserId : String
  MsgId : String
  MsgType : Int
  MsgData : Option Any
  Push : Option PushContent
  MsgTypeName : String
  AppName : String
  DeviceIdentifer : String
  deriving DecidableEq, Repr

structure DeviceIdPush where
  DeviceIds : List String
  Push : Option PushContent
  deriving DecidableEq, Repr

structure LimitVersion where
  MinAndroidVersion : String
  MaxAndroidVersion : String
  MinIosVersion : String
  MaxIosVersion : String
  MinUIVersion : String
  deriving DecidableEq, Repr

structure TransferMessageRequest where
  ReceiverId : String
  MsgId : String
  MsgType : Int
  MsgData : Option Any
  Push : Option PushContent
  DeviceIdPushes : List DeviceIdPush
  MsgTypeName : String
  AppName : String
  DeviceIdentifer : String
  Filters : List (String × String)
  LimitVersion : Option LimitVersion
  ForceLangs : List String
  deriving DecidableEq, Repr

structure DeviceIdentifier where
  Identifer : String
  IsOnline : Bool
  deriving DecidableEq, Repr

structure TransferPushMessageReply where
  IsUserOnline : Bool
  DeviceIdentifiers : List DeviceIdentifier
  deriving DecidableEq, Repr

/-- Go `ConnectorClientWrapper`. `Connector` is the identity of the handle
whose `TransmitMessage` is called. -/
structure ConnectorClientWrapper where
  DeviceID : String
  Locale : String
  Source : String
  UA : UserAgent
  Connector : Nat
  deriving DecidableEq, Repr

/-- The rest of the Go library the package calls and this file leaves open:
`fmt.Sprintf` outside the modelled fragment, `encoding/json` on the two types
it is used on, and `base64.StdEncoding.EncodeToString`. -/
structure Lib where
  sprintfOther : String → List String → String
  jsonMarshalRequest : TransferMessageRequest → Except GoError Bytes
  base64 : Bytes → String
  jsonUnmarshalChatMsg : Bytes → Except GoError ChatMsg
  jsonMarshalChatMsg : ChatMsg → Except GoError Bytes

/-- One call on a collaborator, with its arguments (the context apart). -/
inductive Call where
  | GenSequenceID (key : String) (expireSeconds : Int)
  | HCAD (appID userId deviceID source addr : String)
  | HCADSR (appID userId deviceID source addr : String)
  | PickConnectors (appName userID deviceIdentifier : String) (filters : List (String × String))
  | InsertMsg (appID userID seq : Int) (deviceIdentifier msgID msgData : String)
  | TransmitMessage (connector : Nat) (req : TransmitMessageRequest)
  deriving DecidableEq, Repr

/-- Behaviour of the collaborators: the interfaces `RouterRedisClient`,
`Router`, `ReliableMsg` and `ConnectorClient`, each a function of a state `σ`
that the call may change. `GenSequenceID` answers a value or an error; the
results of `HCAD` and `HCADSR` are dropped by the caller. -/
structure Env (σ : Type) where
  GenSequenceID : σ → String → Int → Except GoError Int × σ
  HCAD : σ → String → String → String → String → String → σ
  HCADSR : σ → String → String → String → String → String → σ
  PickConnectors : σ → String → String → String → List (String × String) →
    List ConnectorClientWrapper × σ
  InsertMsg : σ → Int → Int → Int → String → String → String → Option GoError × σ
  TransmitMessage : σ → Nat → TransmitMessageRequest → Option GoError × σ

/-- A run-time fault of the Go code: a nil pointer dereference. -/
inductive Panic where
  | nilDereference
  deriving DecidableEq, Repr

/-! ## Mocked helpers of the package -/

/-- Go `ptypes.Is`. -/
def ptypesIs (_any : Option Any) (_msg : ChatMsg) : Bool := false

/-- Go `ptypes.UnmarshalAny` into a `ChatMsg`. -/
def ptypesUnmarshalAny (lib : Lib) (any : Option Any) : Except GoError ChatMsg :=
  match any with
  | none => .error (errorsNew "any is empty")
  | some a =>
    if a.Value.length = 0 then .error (errorsNew "any is empty")
    else lib.jsonUnmarshalChatMsg a.Value

/-- Go `ptypes.MarshalAny` of a `*ChatMsg`. -/
def ptypesMarshalAny (lib : Lib) (msg : ChatMsg) : Except GoError Any :=
  match lib.jsonMarshalChatMsg msg with
  | .error e => .error e
  | .ok data => .ok ⟨"type.googleapis.com/*router.ChatMsg", data⟩

/-- Go `Util.ContainsString`. -/
def ContainsString (str : String) : List String → Bool
  | [] => false
  | s :: list => if s = str then true else ContainsString str list

/-- Go `>=` on strings: byte-wise lexical order, here on the characters. -/
def strLt : List Char → List Char → Bool
  | _, [] => false
  | [], _ :: _ => true
  | a :: as, b :: bs => if a.toNat < b.toNat then true else if b.toNat < a.toNat then false
    else strLt as bs

/-- Go `CommonUtil.VersionGreaterThanOrEqualTo`: `v1 >= v2`. -/
def VersionGreaterThanOrEqualTo (v1 v2 : String) : Bool := !strLt v1.toList v2.toList

/-- Go `IsErrUserNotExist` on a non-nil error. -/
def IsErrUserNotExist (err : GoError) : Bool := err.msg = "user not exist"

/-! ## The functions of `RouterServer` -/

/-- Inner loop of `getOriginPush` over the device ids of one override:
whether `deviceId` is among them. -/
def getOriginPushIds (deviceId : String) : List String → Bool
  | [] => false
  | tmpDeviceId :: ids => if tmpDeviceId = deviceId then true else getOriginPushIds deviceId ids

/-- Outer loop of `getOriginPush`: the push of the first override holding
`deviceId`, if there is one. -/
def getOriginPushLoop (deviceId : String) : List DeviceIdPush → Option (Option PushContent)
  | [] => none
  | deviceIdPush :: rest =>
    if getOriginPushIds deviceId deviceIdPush.DeviceIds then some deviceIdPush.Push
    else getOriginPushLoop deviceId rest

/-- Go `(*RouterServer).getOriginPush`. -/
def getOriginPush (req : TransferMessageRequest) (deviceId : String) : Option PushContent :=
  if req.DeviceIdPushes.length > 0 then
    match getOriginPushLoop deviceId req.DeviceIdPushes with
    | some r => r
    | none => req.Push
  else req.Push

/-- The key `genTTDBSeq` builds for the counter store. -/
def seqKeyOf (appID userID : String) (tm : Time) : String :=
  let secTmStr := tm.Format20060102150405
  ReliableMsgSeqPre ++ appID ++ RedisInterval ++ userID ++ secTmStr

/-- Go `(*RouterServer).genTTDBSeq`: the sequence or the error, the calls made
and the state of the collaborators afterwards. The error of `ParseInt` is
dropped as in the source. -/
def genTTDBSeq {σ : Type} (env : Env σ) (st : σ) (appID userID : String) (tm : Time) :
    Except GoError Int × List Call × σ :=
  let seqKey := seqKeyOf appID userID tm
  match env.GenSequenceID st seqKey SeqExpireSeconds with
  | (.error err, st1) => (.error err, [Call.GenSequenceID seqKey SeqExpireSeconds], st1)
  | (.ok seq, st1) =>
    let val := sprintfD tm.unix ++ sprintf04d seq
    ((.ok (ParseInt val).1), [Call.GenSequenceID seqKey SeqExpireSeconds], st1)

/-- Result of `processChatMsg`: the new payload, the error returned, or a
fault. -/
inductive ChatResult where
  | ok (data : Any)
  | error (err : GoError)
  | panic (p : Panic)
  deriving DecidableEq, Repr

/-- Go `processChatMsg`. `push.GetTicker().GetValue()` reads the field of the
ticker pointer without a nil test. -/
def processChatMsg (lib : Lib) (msgData : Option Any) (push : PushContent) : ChatResult :=
  match ptypesUnmarshalAny lib msgData with
  | .error err => .error err
  | .ok chatMsg =>
    match push.Ticker with
    | none => .panic .nilDereference
    | some ticker =>
      let chatMsg1 := { chatMsg with Ticker := ticker.Value }
      let chatMsg2 := { chatMsg1 with Message := push.Message }
      match ptypesMarshalAny lib chatMsg2 with
      | .error err => .error err
      | .ok data => .ok data

/-- Go `parseI18n`; `none` is the nil result. -/
def parseI18n (lib : Lib) (i18n : I18N) (locale : String) : Option I18N :=
  let finish (localeStr : String) : Option I18N :=
    let value :=
      if i18n.Params.length > 0 then Sprintf lib.sprintfOther localeStr i18n.Params
      else localeStr
    some { Value := value, Locales := [], Params := [] }
  match i18n.Locales.lookup locale with
  | some s => finish s
  | none =>
    if len i18n.Value > 0 then finish i18n.Value
    else
      match i18n.Locales.lookup DefaultLocale with
      | some s => finish s
      | none =>
        if i18n.Locales.length > 0 then none
        else finish ""

/-- Go `processPush`. -/
def processPush (lib : Lib) (push : PushContent) (locale : String) : PushContent :=
  let push1 :=
    match push.Title with
    | some t => { push with Title := parseI18n lib t locale }
    | none => push
  let push2 :=
    match push1.Value with
    | some v => { push1 with Value := parseI18n lib v locale }
    | none => push1
  match push2.Ticker with
  | some t => { push2 with Ticker := parseI18n lib t locale }
  | none => push2

/-- Go `(*RouterServer).versionNotInRange`. -/
def versionNotInRange (min max v : String) : Bool :=
  if min ≠ "" ∧ max = "" then
    if VersionGreaterThanOrEqualTo v min then false else true
  else if min = "" ∧ max = "" then false
  else if min ≠ "" ∧ max ≠ "" then
    if VersionGreaterThanOrEqualTo max v && VersionGreaterThanOrEqualTo v min then false
    else true
  else if min = "" ∧ max ≠ "" then
    if VersionGreaterThanOrEqualTo max v then false else true
  else false

/-- Go `(*RouterServer).isLimitVersion`. -/
def isLimitVersion (wrapper : ConnectorClientWrapper) (limit : LimitVersion) : Bool :=
  let ua := wrapper.UA
  let bounds : Option (String × String) :=
    if ua.Source = CLIENT_SOURCE_ANDROID then
      some (limit.MinAndroidVersion, limit.MaxAndroidVersion)
    else if ua.Source = CLIENT_SOURCE_IOS then
      some (limit.MinIosVersion, limit.MaxIosVersion)
    else none
  match bounds with
  | none => true
  | some (min, max) =>
    if versionNotInRange min max ua.AppVersion then true
    else if len ua.AppUIVersion ≠ 0 then
      versionNotInRange limit.MinUIVersion "" ua.AppUIVersion
    else false

/-- Go `(*RouterServer).isNotForcedLangs`. -/
def isNotForcedLangs (lang : String) (forcedLangs : List String) : Bool :=
  if forcedLangs.length > 0 then
    if !ContainsString lang forcedLangs then true else false
  else false

/-- Go `(*RouterServer).handleError` for a non-nil `err`: the calls made on the
store and its state afterwards. -/
def handleError {σ : Type} (env : Env σ) (st : σ) (err : GoError)
    (appID userId deviceID source : String) : List Call × σ :=
  if IsErrUserNotExist err then
    if userId = "0" then
      ([Call.HCAD appID userId deviceID source ""], env.HCAD st appID userId deviceID source "")
    else
      ([Call.HCADSR appID userId deviceID source ""],
        env.HCADSR st appID userId deviceID source "")
  else ([], st)

/-- The persistence goroutine as started: the values its closure holds. -/
structure PersistTask where
  req : TransferMessageRequest
  appIDInt : Int
  userIdInt : Int
  seq : Int
  deriving DecidableEq, Repr

/-- The fan-out goroutine as started: the values its closure holds. -/
structure FanOutTask where
  req : TransferMessageRequest
  connectorWrappers : List ConnectorClientWrapper
  deriving DecidableEq, Repr

/-- What a call of `TransferOnlineReliableMessage` leaves behind: the two
results, the request object after the call, the calls made before it returns,
the state of the collaborators, and the goroutines it started. -/
structure Outcome (σ : Type) where
  reply : Option TransferPushMessageReply
  err : Option GoError
  req : TransferMessageRequest
  calls : List Call
  state : σ
  persist : Option PersistTask
  fanOut : Option FanOutTask

/-- The assignments of `CreateTime` at the entry of
`TransferOnlineReliableMessage`. -/
def stampCreateTime (now : Int) (req : TransferMessageRequest) : TransferMessageRequest :=
  let req1 :=
    match req.Push with
    | some push => { req with Push := some { push with CreateTime := now } }
    | none => req
  if req1.DeviceIdPushes.length > 0 then
    { req1 with DeviceIdPushes := req1.DeviceIdPushes.map fun deviceIdPush =>
        match deviceIdPush.Push with
        | some push => { deviceIdPush with Push := some { push with CreateTime := now } }
        | none => deviceIdPush }
  else req1

/-- The loop of `TransferOnlineReliableMessage` that fills
`rpl.DeviceIdentifiers`. -/
def appendDeviceIdentifiers (acc : List DeviceIdentifier) :
    List ConnectorClientWrapper → List DeviceIdentifier
  | [] => acc
  | w :: ws =>
    if w.DeviceID ≠ "" then
      appendDeviceIdentifiers (acc ++ [{ Identifer := w.DeviceID, IsOnline := true }]) ws
    else appendDeviceIdentifiers acc ws

/-- Go `(*RouterServer).TransferOnlineReliableMessage`, up to its return.
`now` is the first reading of the clock in milliseconds, `tm` the second
reading. -/
def TransferOnlineReliableMessage {σ : Type} (cfg : Config) (env : Env σ) (st : σ)
    (now : Int) (tm : Time) (req : TransferMessageRequest) : Outcome σ :=
  if cfg.Service.DisableSendReliable then
    { reply := none, err := none, req := req, calls := [], state := st,
      persist := none, fanOut := none }
  else if len req.ReceiverId = 0 then
    { reply := none, err := some (errorsNew "receiver id is empty when transfer message"),
      req := req, calls := [], state := st, persist := none, fanOut := none }
  else
    match Atoi req.ReceiverId with
    | (_, some _) =>
      { reply := none, err := some (errorsNew "receiver id is not valid"),
        req := req, calls := [], state := st, persist := none, fanOut := none }
    | (userIdInt, none) =>
      if len req.MsgId = 0 then
        { reply := none, err := some (errorfUid req.ReceiverId),
          req := req, calls := [], state := st, persist := none, fanOut := none }
      else
        let req1 := stampCreateTime now req
        let appIDInt := cfg.AppIndex req1.AppName
        match genTTDBSeq env st req1.AppName req1.ReceiverId tm with
        | (.error err, calls, st1) =>
          { reply := none, err := some err, req := req1, calls := calls, state := st1,
            persist := none, fanOut := none }
        | (.ok seq, calls, st1) =>
          let picked := env.PickConnectors st1 req1.AppName req1.ReceiverId
            req1.DeviceIdentifer req1.Filters
          let connectorWrappers := picked.1
          let calls1 := calls ++ [Call.PickConnectors req1.AppName req1.ReceiverId
            req1.DeviceIdentifer req1.Filters]
          if connectorWrappers.length = 0 then
            { reply := some { IsUserOnline := false, DeviceIdentifiers := [] }, err := none,
              req := req1, calls := calls1, state := picked.2, persist := none, fanOut := none }
          else
            { reply := some { IsUserOnline := true,
                              DeviceIdentifiers := appendDeviceIdentifiers [] connectorWrappers },
              err := none, req := req1, calls := calls1, state := picked.2,
              persist :=
                if cfg.Service.IsStoreReliableMsg then
                  some { req := req1, appIDInt := appIDInt, userIdInt := userIdInt, seq := seq }
                else none,
              fanOut := some { req := req1, connectorWrappers := connectorWrappers } }

/-- Body of the persistence goroutine: the calls it makes and the state of the
collaborators afterwards. -/
def runPersist {σ : Type} (lib : Lib) (env : Env σ) (st : σ) (task : PersistTask) :
    List Call × σ :=
  match lib.jsonMarshalRequest task.req with
  | .error _ => ([], st)
  | .ok raw =>
    let msgData := lib.base64 raw
    ([Call.InsertMsg task.appIDInt task.userIdInt task.seq task.req.DeviceIdentifer
        task.req.MsgId msgData],
      (env.InsertMsg st task.appIDInt task.userIdInt task.seq task.req.DeviceIdentifer
        task.req.MsgId msgData).2)

/-- How the fan-out goroutine ended: the loop ran to its end, `return` after an
error of `processChatMsg`, or a fault. -/
inductive FanOutExit where
  | completed
  | aborted (err : GoError)
  | panicked (p : Panic)
  deriving DecidableEq, Repr

/-- What a run of the fan-out goroutine leaves behind. -/
structure FanOutRun (σ : Type) where
  calls : List Call
  state : σ
  req : TransferMessageRequest
  exit : FanOutExit

/-- Loop of the fan-out goroutine over the wrappers still to visit; `req` is the
request object (the loop assigns `MsgData`), `calls` the calls made so far. -/
def fanOutLoop {σ : Type} (lib : Lib) (env : Env σ) :
    List ConnectorClientWrapper → TransferMessageRequest → List Call → σ → FanOutRun σ
  | [], req, calls, st => { calls := calls, state := st, req := req, exit := .completed }
  | wrapper :: rest, req, calls, st =>
    let limited : Bool :=
      match req.LimitVersion with
      | some limit => isLimitVersion wrapper limit
      | none => false
    match limited with
    | true => fanOutLoop lib env rest req calls st
    | false =>
      if isNotForcedLangs wrapper.Locale req.ForceLangs then fanOutLoop lib env rest req calls st
      else
        let push : PushContent :=
          match getOriginPush req wrapper.DeviceID with
          | some originPush => processPush lib originPush wrapper.Locale
          | none => PushContent.zero
        let rewritten : Except FanOutExit TransferMessageRequest :=
          if ptypesIs req.MsgData ⟨"", ""⟩ then
            match processChatMsg lib req.MsgData push with
            | .error err => .error (.aborted err)
            | .panic p => .error (.panicked p)
            | .ok data => .ok { req with MsgData := some data }
          else .ok req
        match rewritten with
        | .error e => { calls := calls, state := st, req := req, exit := e }
        | .ok req1 =>
          let treq : TransmitMessageRequest :=
            { UserId := req1.ReceiverId, MsgId := req1.MsgId, MsgType := req1.MsgType,
              MsgData := req1.MsgData, Push := some push, MsgTypeName := req1.MsgTypeName,
              AppName := req1.AppName, DeviceIdentifer := wrapper.DeviceID }
          let sent := env.TransmitMessage st wrapper.Connector treq
          let calls1 := calls ++ [Call.TransmitMessage wrapper.Connector treq]
          match sent.1 with
          | some err =>
            let handled := handleError env sent.2 err req1.AppName req1.ReceiverId
              wrapper.DeviceID wrapper.Source
            fanOutLoop lib env rest req1 (calls1 ++ handled.1) handled.2
          | none => fanOutLoop lib env rest req1 calls1 sent.2

/-- Body of the fan-out goroutine. -/
def runFanOut {σ : Type} (lib : Lib) (env : Env σ) (st : σ) (task : FanOutTask) : FanOutRun σ :=
  fanOutLoop lib env task.connectorWrappers task.req [] st

/-! ## A concrete run: the end-to-end scenario of the specification -/

def scenarioAndroid : ConnectorClientWrapper :=
  { DeviceID := "android-1", Locale := "en-US", Source := "client",
    UA := { Source := CLIENT_SOURCE_ANDROID, AppVersion := "1.0", AppUIVersion := "" },
    Connector := 1 }

def scenarioIos : ConnectorClientWrapper :=
  { DeviceID := "ios-1", Locale := "en-US", Source := "client",
    UA := { Source := CLIENT_SOURCE_IOS, AppVersion := "1.0.0", AppUIVersion := "" },
    Connector := 2 }

def scenarioLimit : LimitVersion :=
  { MinAndroidVersion := "2.0", MaxAndroidVersion := "", MinIosVersion := "",
    MaxIosVersion := "", MinUIVersion := "" }

def scenarioPush : PushContent :=
  { Title := none, Value := some { Value := "Hello", Locales := [], Params := [] },
    Ticker := none, Message := "", CreateTime := 0 }

def scenarioReq : TransferMessageRequest :=
  { ReceiverId := "42", MsgId := "m1", MsgType := 0, MsgData := none,
    Push := some scenarioPush, DeviceIdPushes := [], MsgTypeName := "", AppName := "0",
    DeviceIdentifer := "", Filters := [], LimitVersion := some scenarioLimit,
    ForceLangs := [] }

/-- Collaborators of the scenario: the counter answers `1`, the directory
answers the Android and the iOS endpoint, every other call succeeds. The state
counts the calls. -/
def scenarioEnv : Env Nat :=
  { GenSequenceID := fun st _ _ => (.ok 1, st + 1)
    HCAD := fun st _ _ _ _ _ => st + 1
    HCADSR := fun st _ _ _ _ _ => st + 1
    PickConnectors := fun st _ _ _ _ => ([scenarioAndroid, scenarioIos], st + 1)
    InsertMsg := fun st _ _ _ _ _ _ => (none, st + 1)
    TransmitMessage := fun st _ _ => (none, st + 1) }

/-- Collaborators whose counter store fails and whose directory is empty. -/
def failingEnv : Env Nat :=
  { scenarioEnv with
    GenSequenceID := fun st _ _ => (.error ⟨"redis down"⟩, st + 1)
    PickConnectors := fun st _ _ _ _ => ([], st + 1) }

/-- Collaborators with a working counter store and an empty directory. -/
def offlineEnv : Env Nat :=
  { scenarioEnv with PickConnectors := fun st _ _ _ _ => ([], st + 1) }

def scenarioCfg : Config :=
  { Service := { DisableSendReliable := false, IsNeedTTDB := false,
                 IsStoreReliableMsg := true, DisablePingProcess := false } }

def disabledCfg : Config :=
  { Service := { DisableSendReliable := true, IsNeedTTDB := false,
                 IsStoreReliableMsg := true, DisablePingProcess := false } }

/-- The instant 2020-01-14 14:45:45 UTC. -/
def scenarioTime : Time :=
  { unix := 1579013145, year := 2020, month := 1, day := 14, hour := 14, minute := 45,
    second := 45 }

def scenarioLib : Lib :=
  { sprintfOther := fun format _ => format
    jsonMarshalRequest := fun _ => .ok []
    base64 := fun _ => ""
    jsonUnmarshalChatMsg := fun _ => .ok ⟨"", ""⟩
    jsonMarshalChatMsg := fun _ => .ok [] }

/-! ## Predicates and functions the statements are written with -/

/-- A request passes the validation of `TransferOnlineReliableMessage`: the
receiver id is not empty and `Atoi` accepts it, the message id is not empty. -/
def PassesValidation (req : TransferMessageRequest) : Prop :=
  req.ReceiverId ≠ "" ∧ (Atoi req.ReceiverId).2 = none ∧ req.MsgId ≠ ""

instance (req : TransferMessageRequest) : Decidable (PassesValidation req) := by
  unfold PassesValidation
  infer_instance

/-- The call is a no-op: nothing is asked of a collaborator, their state and
the request are as before, no goroutine is started. -/
def Outcome.Untouched {σ : Type} (out : Outcome σ) (st : σ) (req : TransferMessageRequest) :
    Prop :=
  out.calls = [] ∧ out.state = st ∧ out.req = req ∧ out.persist = none ∧ out.fanOut = none

/-- The device list the specification gives for the endpoints `ws`: one entry
`(device id, online)` per endpoint with a non-empty device id, in order. -/
def specDeviceIdentifiers (ws : List ConnectorClientWrapper) : List DeviceIdentifier :=
  (ws.filter fun w => decide (w.DeviceID ≠ "")).map
    fun w => { Identifer := w.DeviceID, IsOnline := true }

/-- The `TransmitMessage` calls of a list of calls: handle and request. -/
def transmitCalls : List Call → List (Nat × TransmitMessageRequest)
  | [] => []
  | Call.TransmitMessage connector treq :: calls => (connector, treq) :: transmitCalls calls
  | _ :: calls => transmitCalls calls

/-- The endpoints the specification delivers to: no version limit was supplied
or the gate does not exclude the endpoint, and the forced-language list is
empty or holds the locale of the endpoint. -/
def specDelivers (req : TransferMessageRequest) (w : ConnectorClientWrapper) : Bool :=
  (match req.LimitVersion with
    | none => true
    | some limit => !isLimitVersion w limit) &&
  (decide (req.ForceLangs = []) || decide (w.Locale ∈ req.ForceLangs))

/-- The push the specification sends to an endpoint: the effective push
localized at the locale of the endpoint, the empty push when there is none. -/
def specPush (lib : Lib) (req : TransferMessageRequest) (w : ConnectorClientWrapper) :
    PushContent :=
  match getOriginPush req w.DeviceID with
  | some originPush => processPush lib originPush w.Locale
  | none => PushContent.zero

/-- The transmission the specification makes for an endpoint: the handle of the
endpoint and the request handed to it. -/
def specTransmit (lib : Lib) (req : TransferMessageRequest) (w : ConnectorClientWrapper) :
    Nat × TransmitMessageRequest :=
  (w.Connector,
    { UserId := req.ReceiverId, MsgId := req.MsgId, MsgType := req.MsgType,
      MsgData := req.MsgData, Push := some (specPush lib req w),
      MsgTypeName := req.MsgTypeName, AppName := req.AppName,
      DeviceIdentifer := w.DeviceID })

/-- The number a run of digits denotes, read after the value `a`. -/
def readDigits : List Char → Nat → Nat
  | [], a => a
  | c :: cs, a => readDigits cs (a * 10 + (c.toNat - '0'.toNat))

/-- The width `%04d` gives a non-negative number: four, or the number of its
digits when that is more. -/
def padWidth (n : Nat) : Nat := max 4 (decimal n).length

/-- The decimal number `genTTDBSeq` writes for the unix seconds `u` and the
counter `c`, both non-negative. -/
def composed (u c : Nat) : Nat := u * 10 ^ padWidth c + c

/-- Collaborators whose counter store answers `c`. -/
def counterEnv (c : Int) : Env Nat :=
  { scenarioEnv with GenSequenceID := fun st _ _ => (.ok c, st + 1) }

/-- The instant 2023-11-14 22:13:20 UTC. -/
def timeA : Time :=
  { unix := 1700000000, year := 2023, month := 11, day := 14, hour := 22, minute := 13,
    second := 20 }

/-- The instant 2023-11-14 22:13:21 UTC, one second after `timeA`. -/
def timeB : Time :=
  { unix := 1700000001, year := 2023, month := 11, day := 14, hour := 22, minute := 13,
    second := 21 }

/-- The instant 10^15 seconds after the epoch, 31690708-07-05 01:46:40 UTC. -/
def farTime : Time :=
  { unix := 1000000000000000, year := 31690708, month := 7, day := 5, hour := 1,
    minute := 46, second := 40 }

/-- The string the specification's resolution order chooses for a template at
a locale: the entry of the locale; else the default value when it is not
empty; else the entry of `en-US`; else nothing when the locale map is not
empty, and the empty string when it is. -/
def chosenString (t : I18N) (l : String) : Option String :=
  match t.Locales.lookup l with
  | some s => some s
  | none =>
    if t.Value ≠ "" then some t.Value
    else
      match t.Locales.lookup "en-US" with
      | some s => some s
      | none => if t.Locales = [] then some "" else none

/-- The text made of the pieces `f p ++ s` for the pairs `(p, s)` of a list:
a parameter `p` and the literal text `s` that follows its placeholder. -/
def joinParts (f : String → String) : List (String × String) → String
  | [] => ""
  | (p, s) :: rest => f p ++ s ++ joinParts f rest

/-- The components of a dotted version: the runs of characters between the
dots. -/
def splitDots : List Char → List (List Char)
  | [] => [[]]
  | c :: cs =>
    if c = '.' then [] :: splitDots cs
    else
      match splitDots cs with
      | [] => [[c]]
      | x :: xs => (c :: x) :: xs

/-- Comparison of two versions given by their numeric components, first
component first; a missing component counts as zero. -/
def componentsGE : List Nat → List Nat → Bool
  | [], ys => ys.all fun y => y = 0
  | _ :: _, [] => true
  | x :: xs, y :: ys => if y < x then true else if x < y then false else componentsGE xs ys

/-- The version-aware comparison of the specification on dotted-numeric
versions: component by component, as numbers. -/
def specVersionGE (v1 v2 : String) : Bool :=
  componentsGE ((splitDots v1.toList).map fun c => readDigits c 0)
    ((splitDots v2.toList).map fun c => readDigits c 0)

/-- The version gate as the specification words it: excluded when the platform
is neither Android nor iOS; otherwise excluded when the app version is out of
the range of the platform; otherwise, with a UI version, excluded when it is
below the UI minimum; otherwise not excluded. -/
def specIsLimitVersion (w : ConnectorClientWrapper) (limit : LimitVersion) : Bool :=
  if w.UA.Source ≠ CLIENT_SOURCE_ANDROID ∧ w.UA.Source ≠ CLIENT_SOURCE_IOS then true
  else
    let min := if w.UA.Source = CLIENT_SOURCE_ANDROID then limit.MinAndroidVersion
      else limit.MinIosVersion
    let max := if w.UA.Source = CLIENT_SOURCE_ANDROID then limit.MaxAndroidVersion
      else limit.MaxIosVersion
    if versionNotInRange min max w.UA.AppVersion then true
    else if w.UA.AppUIVersion ≠ "" then versionNotInRange limit.MinUIVersion "" w.UA.AppUIVersion
    else false

/-- An Android endpoint with the given app version and UI version. -/
def androidEndpoint (appVersion uiVersion : String) : ConnectorClientWrapper :=
  { DeviceID := "android-1", Locale := "en-US", Source := "client",
    UA := { Source := CLIENT_SOURCE_ANDROID, AppVersion := appVersion,
            AppUIVersion := uiVersion },
    Connector := 1 }

/-- A limit of the version gate with no bound but a UI minimum. -/
def uiOnlyLimit (minUI : String) : LimitVersion :=
  { MinAndroidVersion := "", MaxAndroidVersion := "", MinIosVersion := "",
    MaxIosVersion := "", MinUIVersion := minUI }

/-- A request with two overrides, the first without a push, and a default
push. -/
def overrideReq : TransferMessageRequest :=
  { scenarioReq with
    DeviceIdPushes :=
      [{ DeviceIds := ["d1", "d2"], Push := none },
       { DeviceIds := ["d2", "d3"], Push := some { scenarioPush with Message := "second" } }] }

/-- Collaborators whose every transmission fails with the error `err`. -/
def rejectingEnv (err : GoError) : Env Nat :=
  { scenarioEnv with TransmitMessage := fun st _ _ => (some err, st + 1) }

/-- Every character is a decimal digit. -/
def allDigits (cs : List Char) : Bool := cs.all fun c => decide ('0' ≤ c ∧ c ≤ '9')

/-- The string is the decimal representation of a non-negative integer: one
or more decimal digits. -/
def isNonNegDecimal (s : String) : Bool := !s.toList.isEmpty && allDigits s.toList

/-- The string is an optional sign followed by one or more decimal digits. -/
def isSignedDecimal (s : String) : Bool :=
  match s.toList with
  | '+' :: ds => !ds.isEmpty && allDigits ds
  | '-' :: ds => !ds.isEmpty && allDigits ds
  | ds => !ds.isEmpty && allDigits ds

/-- The `I18N` values that `*I18N` pointers refer to: a pointer is an index of
the list, a new value is put at its end. -/
abbrev I18NHeap := List I18N

/-- Go `PushContent` with its three `*I18N` fields as pointers into an
`I18NHeap`. -/
structure PushContentPtr where
  Title : Option Nat
  Value : Option Nat
  Ticker : Option Nat
  Message : String
  CreateTime : Int
  deriving DecidableEq, Repr

/-- The payload a `PushContentPtr` denotes in a heap. -/
def PushContentPtr.deref (heap : I18NHeap) (p : PushContentPtr) : PushContent :=
  { Title := p.Title.bind fun a => heap[a]?
    Value := p.Value.bind fun a => heap[a]?
    Ticker := p.Ticker.bind fun a => heap[a]?
    Message := p.Message
    CreateTime := p.CreateTime }

/-- Go `parseI18n(*ptr, locale)` with the pointers explicit: the template is
copied out of the heap into the parameter, the function works on that copy, and
the pointer returned is the address of the copy, a new value of the heap. -/
def parseI18nAt (lib : Lib) (heap : I18NHeap) (ptr : Nat) (locale : String) :
    Option Nat × I18NHeap :=
  match heap[ptr]? with
  | none => (none, heap)
  | some i18n =>
    match parseI18n lib i18n locale with
    | none => (none, heap)
    | some resolved => (some heap.length, heap ++ [resolved])

/-- Go `processPush` with the pointers explicit: `push` is the copy of the
caller's struct, its three fields are assigned in turn, and the copy is
returned. -/
def processPushAt (lib : Lib) (heap : I18NHeap) (push : PushContentPtr) (locale : String) :
    PushContentPtr × I18NHeap :=
  let r1 : PushContentPtr × I18NHeap :=
    match push.Title with
    | some ptr =>
      let r := parseI18nAt lib heap ptr locale
      ({ push with Title := r.1 }, r.2)
    | none => (push, heap)
  let r2 : PushContentPtr × I18NHeap :=
    match r1.1.Value with
    | some ptr =>
      let r := parseI18nAt lib r1.2 ptr locale
      ({ r1.1 with Value := r.1 }, r.2)
    | none => r1
  match r2.1.Ticker with
  | some ptr =>
    let r := parseI18nAt lib r2.2 ptr locale
    ({ r2.1 with Ticker := r.1 }, r.2)
  | none => r2

/-- A heap with the template of the specification's example and a ticker. -/
def exampleHeap : I18NHeap :=
  [{ Value := "Hi", Locales := [("fr", "Salut")], Params := [] },
   { Value := "", Locales := [("fr", "x")], Params := [] }]

/-- A payload whose value points to the first template of `exampleHeap` and
whose ticker points to the second. -/
def examplePushPtr : PushContentPtr :=
  { Title := none, Value := some 0, Ticker := some 1, Message := "m", CreateTime := 7 }

/-- One assignment of `processPush` with the pointers explicit: a field that
is set is replaced by the pointer `parseI18nAt` returns, a nil field stays
nil. -/
def resolveField (lib : Lib) (heap : I18NHeap) (field : Option Nat) (locale : String) :
    Option Nat × I18NHeap :=
  match field with
  | some ptr => parseI18nAt lib heap ptr locale
  | none => (none, heap)

/-- The three pointers of a payload point into the heap. -/
def PushContentPtr.ValidIn (p : PushContentPtr) (heap : I18NHeap) : Prop :=
  (∀ a, p.Title = some a → a < heap.length) ∧ (∀ a, p.Value = some a → a < heap.length) ∧
    (∀ a, p.Ticker = some a → a < heap.length)

instance (p : PushContentPtr) (heap : I18NHeap) : Decidable (p.ValidIn heap) := by
  unfold PushContentPtr.ValidIn
  infer_instance

/-- The effective push of the specification for a device: the push of the
first override whose device ids hold the device id, and the default push of the
request when there is no such override. -/
def specEffectivePush (req : TransferMessageRequest) (deviceId : String) :
    Option PushContent :=
  match req.DeviceIdPushes.find? fun o => decide (deviceId ∈ o.DeviceIds) with
  | some o => o.Push
  | none => req.Push

/-- The localization of one template in the specification: the string the
resolution order chooses, with the parameters substituted when there are some,
and no locale map or parameter left; nothing when no string is chosen. -/
def specResolve (lib : Lib) (t : I18N) (l : String) : Option I18N :=
  (chosenString t l).map fun c =>
    { Value := if t.Params = [] then c else Sprintf lib.sprintfOther c t.Params,
      Locales := [], Params := [] }

/-- The localization of a push in the specification: title, value and ticker
each resolved on its own, the message and the creation time kept. -/
def specLocalize (lib : Lib) (p : PushContent) (l : String) : PushContent :=
  { Title := p.Title.bind fun t => specResolve lib t l
    Value := p.Value.bind fun t => specResolve lib t l
    Ticker := p.Ticker.bind fun t => specResolve lib t l
    Message := p.Message
    CreateTime := p.CreateTime }

/-- The push the specification sends to an endpoint for a request entered at
`now`: the effective push of its device id, carrying the creation time `now`,
localized at its locale; the empty push when no push is configured. -/
def specLocalizedPush (lib : Lib) (now : Int) (req : TransferMessageRequest)
    (w : ConnectorClientWrapper) : PushContent :=
  match specEffectivePush req w.DeviceID with
  | some p => specLocalize lib { p with CreateTime := now } w.Locale
  | none => PushContent.zero

/-- The transmission the specification makes to an endpoint for a request
entered at `now`: the handle of the endpoint, and the receiver id, message id,
type, payload, type name and app name of the request with the device id of the
endpoint and its localized push. -/
def specTransmission (lib : Lib) (now : Int) (req : TransferMessageRequest)
    (w : ConnectorClientWrapper) : Nat × TransmitMessageRequest :=
  (w.Connector,
    { UserId := req.ReceiverId, MsgId := req.MsgId, MsgType := req.MsgType,
      MsgData := req.MsgData, Push := some (specLocalizedPush lib now req w),
      MsgTypeName := req.MsgTypeName, AppName := req.AppName,
      DeviceIdentifer := w.DeviceID })

/-- An iOS endpoint with the given device id, locale and handle. -/
def iosEndpoint (deviceId locale : String) (connector : Nat) : ConnectorClientWrapper :=
  { DeviceID := deviceId, Locale := locale, Source := "client",
    UA := { Source := CLIENT_SOURCE_IOS, AppVersion := "1.0.0", AppUIVersion := "" },
    Connector := connector }

/-- A request with templates to localize, an override for the device "ios-2",
a version limit and forced languages. -/
def fanoutReq : TransferMessageRequest :=
  { ReceiverId := "42", MsgId := "m1", MsgType := 3,
    MsgData := some { TypeUrl := "type.x", Value := [1, 2] },
    Push := some
      { Title := some { Value := "Hi", Locales := [("fr", "Salut")], Params := [] },
        Value := some { Value := "", Locales := [("fr", "Bonjour %s"), ("en-US", "Hello %s")],
                        Params := ["Sam"] },
        Ticker := some { Value := "", Locales := [("es", "x")], Params := [] },
        Message := "plain", CreateTime := 0 },
    DeviceIdPushes :=
      [{ DeviceIds := ["ios-2"],
         Push := some { Title := none,
                        Value := some { Value := "Override", Locales := [], Params := [] },
                        Ticker := none, Message := "", CreateTime := 0 } }],
    MsgTypeName := "chat", AppName := "0", DeviceIdentifer := "", Filters := [],
    LimitVersion := some scenarioLimit, ForceLangs := ["fr", "en-US"] }

/-- The endpoints of `fanoutEnv`: an Android endpoint below the minimum version
and three iOS endpoints, the last with a locale that is not forced. -/
def fanoutEndpoints : List ConnectorClientWrapper :=
  [scenarioAndroid, iosEndpoint "ios-1" "fr" 2, iosEndpoint "ios-2" "en-US" 3,
   iosEndpoint "ios-3" "de" 4]

/-- Collaborators whose directory answers `fanoutEndpoints`. -/
def fanoutEnv : Env Nat :=
  { scenarioEnv with PickConnectors := fun st _ _ _ _ => (fanoutEndpoints, st + 1) }

/-! ## Theorems -/

theorem utf8ByteSize_go_pos (c : Char) (cs : List Char) :
    0 < String.utf8ByteSize.go (c :: cs) := by
  have h : 0 < c.utf8Size := Char.utf8Size_pos c
  simp only [String.utf8ByteSize.go]
  omega

theorem len_eq_zero_iff (s : String) : len s = 0 ↔ s = "" := by
  constructor
  · intro h
    rcases s with ⟨cs⟩
    cases cs with
    | nil => rfl
    | cons c cs =>
      have hpos := utf8ByteSize_go_pos c cs
      simp only [len, String.utf8ByteSize] at h
      omega
  · intro h
    subst h
    rfl

theorem stampCreateTime_fields (now : Int) (req : TransferMessageRequest) :
    (stampCreateTime now req).ReceiverId = req.ReceiverId ∧
    (stampCreateTime now req).MsgId = req.MsgId ∧
    (stampCreateTime now req).MsgType = req.MsgType ∧
    (stampCreateTime now req).MsgData = req.MsgData ∧
    (stampCreateTime now req).MsgTypeName = req.MsgTypeName ∧
    (stampCreateTime now req).AppName = req.AppName ∧
    (stampCreateTime now req).DeviceIdentifer = req.DeviceIdentifer ∧
    (stampCreateTime now req).Filters = req.Filters ∧
    (stampCreateTime now req).LimitVersion = req.LimitVersion ∧
    (stampCreateTime now req).ForceLangs = req.ForceLangs := by
  unfold stampCreateTime
  cases hp : req.Push <;> simp only <;> split <;> simp

theorem appendDeviceIdentifiers_eq (ws : List ConnectorClientWrapper) :
    ∀ acc : List DeviceIdentifier,
      appendDeviceIdentifiers acc ws =
        acc ++ (ws.filter fun w => decide (w.DeviceID ≠ "")).map
          fun w => { Identifer := w.DeviceID, IsOnline := true } := by
  induction ws with
  | nil => intro acc; simp [appendDeviceIdentifiers]
  | cons w ws ih =>
    intro acc
    by_cases h : w.DeviceID = ""
    · simp [appendDeviceIdentifiers, h, ih]
    · simp [appendDeviceIdentifiers, h, ih]

/-- After validation the call is the sequence generation followed by the
directory lookup. -/
theorem TransferOnlineReliableMessage_valid {σ : Type} (cfg : Config) (env : Env σ) (st : σ)
    (now : Int) (tm : Time) (req : TransferMessageRequest)
    (hcfg : cfg.Service.DisableSendReliable = false) (hv : PassesValidation req) :
    TransferOnlineReliableMessage cfg env st now tm req =
      match genTTDBSeq env st req.AppName req.ReceiverId tm with
      | (.error err, calls, st1) =>
        { reply := none, err := some err, req := stampCreateTime now req, calls := calls,
          state := st1, persist := none, fanOut := none }
      | (.ok seq, calls, st1) =>
        let picked := env.PickConnectors st1 req.AppName req.ReceiverId
          req.DeviceIdentifer req.Filters
        if picked.1.length = 0 then
          { reply := some { IsUserOnline := false, DeviceIdentifiers := [] }, err := none,
            req := stampCreateTime now req,
            calls := calls ++ [Call.PickConnectors req.AppName req.ReceiverId
              req.DeviceIdentifer req.Filters],
            state := picked.2, persist := none, fanOut := none }
        else
          { reply := some { IsUserOnline := true,
                            DeviceIdentifiers := appendDeviceIdentifiers [] picked.1 },
            err := none, req := stampCreateTime now req,
            calls := calls ++ [Call.PickConnectors req.AppName req.ReceiverId
              req.DeviceIdentifer req.Filters],
            state := picked.2,
            persist :=
              if cfg.Service.IsStoreReliableMsg then
                some { req := stampCreateTime now req, appIDInt := 0,
                       userIdInt := (Atoi req.ReceiverId).1, seq := seq }
              else none,
            fanOut := some { req := stampCreateTime now req, connectorWrappers := picked.1 } } := by
  obtain ⟨h1, h2, h3⟩ := hv
  have hA : Atoi req.ReceiverId = ((Atoi req.ReceiverId).1, none) := Prod.ext rfl h2
  obtain ⟨f1, f2, -, -, -, f6, f7, f8, -, -⟩ := stampCreateTime_fields now req
  unfold TransferOnlineReliableMessage
  rw [hA]
  simp only [hcfg, len_eq_zero_iff, h1, h3, f1, f6, f7, f8, Config.AppIndex]
  simp

theorem genTTDBSeq_error {σ : Type} (env : Env σ) (st : σ) (appID userID : String)
    (tm : Time) (e : GoError)
    (hgen : (env.GenSequenceID st (seqKeyOf appID userID tm) SeqExpireSeconds).1 = .error e) :
    genTTDBSeq env st appID userID tm =
      (.error e, [Call.GenSequenceID (seqKeyOf appID userID tm) SeqExpireSeconds],
        (env.GenSequenceID st (seqKeyOf appID userID tm) SeqExpireSeconds).2) := by
  unfold genTTDBSeq
  cases hr : env.GenSequenceID st (seqKeyOf appID userID tm) SeqExpireSeconds with
  | mk r st1 =>
    rw [hr] at hgen
    simp only at hgen
    subst hgen
    simp only [hr]

theorem genTTDBSeq_ok {σ : Type} (env : Env σ) (st : σ) (appID userID : String)
    (tm : Time) (c : Int)
    (hgen : (env.GenSequenceID st (seqKeyOf appID userID tm) SeqExpireSeconds).1 = .ok c) :
    genTTDBSeq env st appID userID tm =
      (.ok (ParseInt (sprintfD tm.unix ++ sprintf04d c)).1,
        [Call.GenSequenceID (seqKeyOf appID userID tm) SeqExpireSeconds],
        (env.GenSequenceID st (seqKeyOf appID userID tm) SeqExpireSeconds).2) := by
  unfold genTTDBSeq
  cases hr : env.GenSequenceID st (seqKeyOf appID userID tm) SeqExpireSeconds with
  | mk r st1 =>
    rw [hr] at hgen
    simp only at hgen
    subst hgen
    simp only [hr]

/-- C1. With reliable sends enabled, a request whose receiver id is empty or is
rejected by `Atoi`, or whose message id is empty, gets a nil reply and a
non-nil error; no collaborator is called and no goroutine (persistence,
fan-out with its transmissions) is started. -/
theorem C1_invalid_request_rejected {σ : Type} (cfg : Config) (env : Env σ) (st : σ)
    (now : Int) (tm : Time) (req : TransferMessageRequest)
    (hcfg : cfg.Service.DisableSendReliable = false)
    (hbad : req.ReceiverId = "" ∨ (Atoi req.ReceiverId).2 ≠ none ∨ req.MsgId = "") :
    (TransferOnlineReliableMessage cfg env st now tm req).reply = none ∧
    (TransferOnlineReliableMessage cfg env st now tm req).err ≠ none ∧
    (TransferOnlineReliableMessage cfg env st now tm req).calls = [] ∧
    (TransferOnlineReliableMessage cfg env st now tm req).persist = none ∧
    (TransferOnlineReliableMessage cfg env st now tm req).fanOut = none := by
  unfold TransferOnlineReliableMessage
  simp only [hcfg, len_eq_zero_iff]
  by_cases h1 : req.ReceiverId = ""
  · simp [h1]
  · cases hA : Atoi req.ReceiverId with
    | mk v e =>
      cases e with
      | some e => simp [h1]
      | none =>
        have h3 : req.MsgId = "" := by
          rcases hbad with h | h | h
          · exact absurd h h1
          · rw [hA] at h; exact absurd rfl h
          · exact h
        simp [h1, h3]

theorem C1_invalid_request_rejected_witness :
    scenarioCfg.Service.DisableSendReliable = false ∧
    (Atoi "4x2").2 ≠ none ∧
    (TransferOnlineReliableMessage scenarioCfg scenarioEnv 0 5 scenarioTime
      { scenarioReq with ReceiverId := "4x2" }).reply = none ∧
    (TransferOnlineReliableMessage scenarioCfg scenarioEnv 0 5 scenarioTime
      { scenarioReq with ReceiverId := "4x2" }).calls = [] :=
  have h := C1_invalid_request_rejected scenarioCfg scenarioEnv 0 5 scenarioTime
    { scenarioReq with ReceiverId := "4x2" } (by decide) (Or.inr (Or.inl (by decide)))
  ⟨by decide, by decide, h.1, h.2.2.1⟩

/-- C2. With `DisableSendReliable` set, every request gets a nil reply and a
nil error; no collaborator is called, no goroutine is started, and the request
is left as it was. -/
theorem C2_disabled_is_noop {σ : Type} (cfg : Config) (env : Env σ) (st : σ)
    (now : Int) (tm : Time) (req : TransferMessageRequest)
    (hcfg : cfg.Service.DisableSendReliable = true) :
    (TransferOnlineReliableMessage cfg env st now tm req).reply = none ∧
    (TransferOnlineReliableMessage cfg env st now tm req).err = none ∧
    (TransferOnlineReliableMessage cfg env st now tm req).Untouched st req := by
  unfold TransferOnlineReliableMessage Outcome.Untouched
  simp [hcfg]

theorem C2_disabled_is_noop_witness :
    disabledCfg.Service.DisableSendReliable = true ∧
    (TransferOnlineReliableMessage disabledCfg scenarioEnv 0 5 scenarioTime scenarioReq).reply
      = none ∧
    (TransferOnlineReliableMessage disabledCfg scenarioEnv 0 5 scenarioTime scenarioReq).err
      = none ∧
    (TransferOnlineReliableMessage disabledCfg scenarioEnv 0 5 scenarioTime
      scenarioReq).Untouched 0 scenarioReq :=
  ⟨by decide, C2_disabled_is_noop disabledCfg scenarioEnv 0 5 scenarioTime scenarioReq
    (by decide)⟩

/-- C3. For a request that passes validation, when `GenSequenceID` answers the
error `e`, the call returns a nil reply and `e` itself; the only call made is
that `GenSequenceID` (so none of `PickConnectors`, `InsertMsg`,
`TransmitMessage`) and no goroutine is started. -/
theorem C3_sequence_error_propagated {σ : Type} (cfg : Config) (env : Env σ) (st : σ)
    (now : Int) (tm : Time) (req : TransferMessageRequest) (e : GoError)
    (hcfg : cfg.Service.DisableSendReliable = false) (hv : PassesValidation req)
    (hgen : (env.GenSequenceID st (seqKeyOf req.AppName req.ReceiverId tm)
      SeqExpireSeconds).1 = .error e) :
    (TransferOnlineReliableMessage cfg env st now tm req).reply = none ∧
    (TransferOnlineReliableMessage cfg env st now tm req).err = some e ∧
    (TransferOnlineReliableMessage cfg env st now tm req).calls =
      [Call.GenSequenceID (seqKeyOf req.AppName req.ReceiverId tm) SeqExpireSeconds] ∧
    (TransferOnlineReliableMessage cfg env st now tm req).persist = none ∧
    (TransferOnlineReliableMessage cfg env st now tm req).fanOut = none := by
  rw [TransferOnlineReliableMessage_valid cfg env st now tm req hcfg hv,
    genTTDBSeq_error env st _ _ tm e hgen]
  simp

theorem C3_sequence_error_propagated_witness :
    scenarioCfg.Service.DisableSendReliable = false ∧ PassesValidation scenarioReq ∧
    (TransferOnlineReliableMessage scenarioCfg failingEnv 0 5 scenarioTime scenarioReq).reply
      = none ∧
    (TransferOnlineReliableMessage scenarioCfg failingEnv 0 5 scenarioTime scenarioReq).err
      = some ⟨"redis down"⟩ :=
  have h := C3_sequence_error_propagated scenarioCfg failingEnv 0 5 scenarioTime scenarioReq
    ⟨"redis down"⟩ (by decide) (by decide) rfl
  ⟨by decide, by decide, h.1, h.2.1⟩

/-- C4. For a request that passes validation and whose sequence generation
succeeds, when the directory answers no endpoint the reply is non-nil with
`IsUserOnline = false` and no device, the error is nil, and neither the
persistence goroutine nor the fan-out is started, whatever
`IsStoreReliableMsg` is. -/
theorem C4_no_endpoint_empty_reply {σ : Type} (cfg : Config) (env : Env σ) (st : σ)
    (now : Int) (tm : Time) (req : TransferMessageRequest) (c : Int)
    (hcfg : cfg.Service.DisableSendReliable = false) (hv : PassesValidation req)
    (hgen : (env.GenSequenceID st (seqKeyOf req.AppName req.ReceiverId tm)
      SeqExpireSeconds).1 = .ok c)
    (hpick : (env.PickConnectors
      (env.GenSequenceID st (seqKeyOf req.AppName req.ReceiverId tm) SeqExpireSeconds).2
      req.AppName req.ReceiverId req.DeviceIdentifer req.Filters).1 = []) :
    (TransferOnlineReliableMessage cfg env st now tm req).reply =
      some { IsUserOnline := false, DeviceIdentifiers := [] } ∧
    (TransferOnlineReliableMessage cfg env st now tm req).err = none ∧
    (TransferOnlineReliableMessage cfg env st now tm req).persist = none ∧
    (TransferOnlineReliableMessage cfg env st now tm req).fanOut = none := by
  rw [TransferOnlineReliableMessage_valid cfg env st now tm req hcfg hv,
    genTTDBSeq_ok env st _ _ tm c hgen]
  simp [hpick]

theorem C4_no_endpoint_empty_reply_witness :
    scenarioCfg.Service.IsStoreReliableMsg = true ∧ PassesValidation scenarioReq ∧
    (TransferOnlineReliableMessage scenarioCfg offlineEnv 0 5 scenarioTime scenarioReq).reply =
      some { IsUserOnline := false, DeviceIdentifiers := [] } ∧
    (TransferOnlineReliableMessage scenarioCfg offlineEnv 0 5 scenarioTime scenarioReq).persist
      = none :=
  have h := C4_no_endpoint_empty_reply scenarioCfg offlineEnv 0 5 scenarioTime scenarioReq 1
    (by decide) (by decide) rfl rfl
  ⟨by decide, by decide, h.1, h.2.2.1⟩

theorem reply_of_endpoints {σ : Type} (cfg : Config) (env : Env σ) (st : σ)
    (now : Int) (tm : Time) (req : TransferMessageRequest) (c : Int)
    (hcfg : cfg.Service.DisableSendReliable = false) (hv : PassesValidation req)
    (hgen : (env.GenSequenceID st (seqKeyOf req.AppName req.ReceiverId tm)
      SeqExpireSeconds).1 = .ok c)
    (hpick : (env.PickConnectors
      (env.GenSequenceID st (seqKeyOf req.AppName req.ReceiverId tm) SeqExpireSeconds).2
      req.AppName req.ReceiverId req.DeviceIdentifer req.Filters).1 ≠ []) :
    (TransferOnlineReliableMessage cfg env st now tm req).reply =
      some { IsUserOnline := true,
             DeviceIdentifiers := specDeviceIdentifiers (env.PickConnectors
               (env.GenSequenceID st (seqKeyOf req.AppName req.ReceiverId tm)
                 SeqExpireSeconds).2
               req.AppName req.ReceiverId req.DeviceIdentifer req.Filters).1 } := by
  rw [TransferOnlineReliableMessage_valid cfg env st now tm req hcfg hv,
    genTTDBSeq_ok env st _ _ tm c hgen]
  simp [hpick, appendDeviceIdentifiers_eq, specDeviceIdentifiers]

/-- C5. For a request that passes validation, with the sequence generated and
a non-empty directory answer `L`, the reply has `IsUserOnline = true` and lists,
in the order of `L`, `(device id, true)` for each endpoint of `L` with a
non-empty device id; the reply is the same whatever the version limit, the
forced languages, the push and the per-device pushes of the request are. -/
theorem C5_reply_lists_endpoints {σ : Type} (cfg : Config) (env : Env σ) (st : σ)
    (now : Int) (tm : Time) (req : TransferMessageRequest) (c : Int)
    (hcfg : cfg.Service.DisableSendReliable = false) (hv : PassesValidation req)
    (hgen : (env.GenSequenceID st (seqKeyOf req.AppName req.ReceiverId tm)
      SeqExpireSeconds).1 = .ok c)
    (hpick : (env.PickConnectors
      (env.GenSequenceID st (seqKeyOf req.AppName req.ReceiverId tm) SeqExpireSeconds).2
      req.AppName req.ReceiverId req.DeviceIdentifer req.Filters).1 ≠ []) :
    (TransferOnlineReliableMessage cfg env st now tm req).reply =
      some { IsUserOnline := true,
             DeviceIdentifiers := specDeviceIdentifiers (env.PickConnectors
               (env.GenSequenceID st (seqKeyOf req.AppName req.ReceiverId tm)
                 SeqExpireSeconds).2
               req.AppName req.ReceiverId req.DeviceIdentifer req.Filters).1 } ∧
    (TransferOnlineReliableMessage cfg env st now tm req).err = none ∧
    ∀ (limit : Option LimitVersion) (langs : List String) (push : Option PushContent)
      (pushes : List DeviceIdPush),
      (TransferOnlineReliableMessage cfg env st now tm
        { req with LimitVersion := limit, ForceLangs := langs, Push := push,
                   DeviceIdPushes := pushes }).reply =
      (TransferOnlineReliableMessage cfg env st now tm req).reply := by
  refine ⟨reply_of_endpoints cfg env st now tm req c hcfg hv hgen hpick, ?_, ?_⟩
  · rw [TransferOnlineReliableMessage_valid cfg env st now tm req hcfg hv,
      genTTDBSeq_ok env st _ _ tm c hgen]
    simp [hpick]
  · intro limit langs push pushes
    rw [reply_of_endpoints cfg env st now tm req c hcfg hv hgen hpick]
    exact reply_of_endpoints cfg env st now tm
      { req with LimitVersion := limit, ForceLangs := langs, Push := push,
                 DeviceIdPushes := pushes } c hcfg hv hgen hpick

theorem C5_reply_lists_endpoints_witness :
    PassesValidation { scenarioReq with LimitVersion := none } ∧
    (TransferOnlineReliableMessage scenarioCfg scenarioEnv 0 5 scenarioTime
      { scenarioReq with LimitVersion := none }).reply =
      some { IsUserOnline := true,
             DeviceIdentifiers := specDeviceIdentifiers [scenarioAndroid, scenarioIos] } :=
  ⟨by decide, (C5_reply_lists_endpoints scenarioCfg scenarioEnv 0 5 scenarioTime
    { scenarioReq with LimitVersion := none } 1 (by decide) (by decide) rfl (by decide)).1⟩

/-- C6, as the code has it. For a request that passes validation and carries a
version limit, with the sequence generated and a non-empty directory answer
`L`, the reply has `IsUserOnline = true` and lists every endpoint of `L` with a
non-empty device id, those the version gate excludes included. -/
theorem C6_reply_ignores_version_gate {σ : Type} (cfg : Config) (env : Env σ) (st : σ)
    (now : Int) (tm : Time) (req : TransferMessageRequest) (c : Int) (limit : LimitVersion)
    (hcfg : cfg.Service.DisableSendReliable = false) (hv : PassesValidation req)
    (hgen : (env.GenSequenceID st (seqKeyOf req.AppName req.ReceiverId tm)
      SeqExpireSeconds).1 = .ok c)
    (hpick : (env.PickConnectors
      (env.GenSequenceID st (seqKeyOf req.AppName req.ReceiverId tm) SeqExpireSeconds).2
      req.AppName req.ReceiverId req.DeviceIdentifer req.Filters).1 ≠ []) :
    (TransferOnlineReliableMessage cfg env st now tm
        { req with LimitVersion := some limit }).reply =
      some { IsUserOnline := true,
             DeviceIdentifiers := specDeviceIdentifiers (env.PickConnectors
               (env.GenSequenceID st (seqKeyOf req.AppName req.ReceiverId tm)
                 SeqExpireSeconds).2
               req.AppName req.ReceiverId req.DeviceIdentifer req.Filters).1 } ∧
    ∀ w ∈ (env.PickConnectors
        (env.GenSequenceID st (seqKeyOf req.AppName req.ReceiverId tm) SeqExpireSeconds).2
        req.AppName req.ReceiverId req.DeviceIdentifer req.Filters).1,
      w.DeviceID ≠ "" → isLimitVersion w limit = true →
        ({ Identifer := w.DeviceID, IsOnline := true } : DeviceIdentifier) ∈
          specDeviceIdentifiers (env.PickConnectors
            (env.GenSequenceID st (seqKeyOf req.AppName req.ReceiverId tm)
              SeqExpireSeconds).2
            req.AppName req.ReceiverId req.DeviceIdentifer req.Filters).1 := by
  refine ⟨reply_of_endpoints cfg env st now tm { req with LimitVersion := some limit } c
    hcfg hv hgen hpick, ?_⟩
  intro w hw hne _
  simp only [specDeviceIdentifiers, List.mem_map, List.mem_filter]
  exact ⟨w, ⟨hw, by simpa using hne⟩, rfl⟩

theorem C6_reply_ignores_version_gate_witness :
    PassesValidation scenarioReq ∧ isLimitVersion scenarioAndroid scenarioLimit = true ∧
    (TransferOnlineReliableMessage scenarioCfg scenarioEnv 0 5 scenarioTime
        { scenarioReq with LimitVersion := some scenarioLimit }).reply =
      some { IsUserOnline := true,
             DeviceIdentifiers := specDeviceIdentifiers [scenarioAndroid, scenarioIos] } :=
  ⟨by decide, by decide, (C6_reply_ignores_version_gate scenarioCfg scenarioEnv 0 5 scenarioTime
    scenarioReq 1 scenarioLimit (by decide) (by decide) rfl (by decide)).1⟩

/-- C6 fails as stated. In the scenario of the specification (receiver "42",
message "m1", minimum Android version 2.0, an Android endpoint at 1.0 and an iOS
endpoint) the version gate excludes the Android endpoint and not the iOS one,
yet the reply lists both device ids, not the iOS one alone. -/
theorem C6_counterexample :
    scenarioReq.ReceiverId = "42" ∧ scenarioReq.MsgId = "m1" ∧
    isLimitVersion scenarioAndroid scenarioLimit = true ∧
    isLimitVersion scenarioIos scenarioLimit = false ∧
    (TransferOnlineReliableMessage scenarioCfg scenarioEnv 0 5 scenarioTime scenarioReq).reply =
      some { IsUserOnline := true,
             DeviceIdentifiers := [⟨"android-1", true⟩, ⟨"ios-1", true⟩] } ∧
    (TransferOnlineReliableMessage scenarioCfg scenarioEnv 0 5 scenarioTime scenarioReq).reply ≠
      some { IsUserOnline := true, DeviceIdentifiers := [⟨"ios-1", true⟩] } := by
  decide

theorem transmitCalls_append (xs ys : List Call) :
    transmitCalls (xs ++ ys) = transmitCalls xs ++ transmitCalls ys := by
  induction xs with
  | nil => rfl
  | cons x xs ih => cases x <;> simp [transmitCalls, ih]

theorem transmitCalls_handleError {σ : Type} (env : Env σ) (st : σ) (err : GoError)
    (appID userId deviceID source : String) :
    transmitCalls (handleError env st err appID userId deviceID source).1 = [] := by
  unfold handleError
  split
  · split <;> rfl
  · rfl

theorem ContainsString_iff (str : String) (list : List String) :
    ContainsString str list = true ↔ str ∈ list := by
  induction list with
  | nil => simp [ContainsString]
  | cons s list ih =>
    by_cases h : s = str
    · simp [ContainsString, h]
    · have h2 : ¬ str = s := fun e => h e.symm
      simp [ContainsString, h, h2, ih]

theorem isNotForcedLangs_eq (lang : String) (forcedLangs : List String) :
    isNotForcedLangs lang forcedLangs =
      !(decide (forcedLangs = []) || decide (lang ∈ forcedLangs)) := by
  unfold isNotForcedLangs
  cases forcedLangs with
  | nil => simp
  | cons l ls =>
    by_cases h : ContainsString lang (l :: ls) = true
    · have hm := (ContainsString_iff lang (l :: ls)).1 h
      simp [h, hm]
    · have hm : ¬ lang ∈ l :: ls := fun hm => h ((ContainsString_iff lang (l :: ls)).2 hm)
      simp only [Bool.not_eq_true] at h
      simp [h, hm]

theorem fanOutLoop_cons_skip {σ : Type} (lib : Lib) (env : Env σ)
    (req : TransferMessageRequest) (w : ConnectorClientWrapper)
    (ws : List ConnectorClientWrapper) (calls : List Call) (st : σ)
    (hd : specDelivers req w = false) :
    fanOutLoop lib env (w :: ws) req calls st = fanOutLoop lib env ws req calls st := by
  have hforce := isNotForcedLangs_eq w.Locale req.ForceLangs
  rw [fanOutLoop]
  unfold specDelivers at hd
  cases hl : req.LimitVersion with
  | none =>
    simp only [hl, Bool.true_and] at hd
    rw [hd] at hforce
    simp [hforce]
  | some limit =>
    simp only [hl] at hd
    cases hlim : isLimitVersion w limit with
    | true => simp [hlim]
    | false =>
      simp only [hlim, Bool.not_false, Bool.true_and] at hd
      rw [hd] at hforce
      simp [hlim, hforce]

theorem fanOutLoop_cons_deliver {σ : Type} (lib : Lib) (env : Env σ)
    (req : TransferMessageRequest) (w : ConnectorClientWrapper)
    (ws : List ConnectorClientWrapper) (calls : List Call) (st : σ)
    (hd : specDelivers req w = true) :
    fanOutLoop lib env (w :: ws) req calls st =
      match (env.TransmitMessage st w.Connector (specTransmit lib req w).2).1 with
      | some err =>
        fanOutLoop lib env ws req
          (calls ++ [Call.TransmitMessage w.Connector (specTransmit lib req w).2] ++
            (handleError env (env.TransmitMessage st w.Connector (specTransmit lib req w).2).2
              err req.AppName req.ReceiverId w.DeviceID w.Source).1)
          (handleError env (env.TransmitMessage st w.Connector (specTransmit lib req w).2).2
            err req.AppName req.ReceiverId w.DeviceID w.Source).2
      | none =>
        fanOutLoop lib env ws req
          (calls ++ [Call.TransmitMessage w.Connector (specTransmit lib req w).2])
          (env.TransmitMessage st w.Connector (specTransmit lib req w).2).2 := by
  have hforce := isNotForcedLangs_eq w.Locale req.ForceLangs
  rw [fanOutLoop]
  unfold specDelivers at hd
  have hlimited : (match req.LimitVersion with
      | some limit => isLimitVersion w limit
      | none => false) = false := by
    cases hl : req.LimitVersion with
    | none => rfl
    | some limit =>
      simp only [hl, Bool.and_eq_true, Bool.not_eq_eq_eq_not, Bool.not_true] at hd
      simpa using hd.1
  have hlangs : (decide (req.ForceLangs = []) || decide (w.Locale ∈ req.ForceLangs)) = true := by
    simp only [Bool.and_eq_true] at hd
    exact hd.2
  rw [hlangs] at hforce
  simp only [hlimited, hforce, ptypesIs, Bool.false_eq_true, if_false, Bool.not_true,
    specTransmit, specPush]

/-- The fan-out loop makes, after the calls already made, the transmissions of
the specification for the wrappers it visits, and runs to its end. -/
theorem fanOutLoop_transmits {σ : Type} (lib : Lib) (env : Env σ)
    (req : TransferMessageRequest) (ws : List ConnectorClientWrapper) :
    ∀ (calls : List Call) (st : σ),
      transmitCalls (fanOutLoop lib env ws req calls st).calls =
        transmitCalls calls ++ (ws.filter (specDelivers req)).map (specTransmit lib req) ∧
      (fanOutLoop lib env ws req calls st).exit = .completed ∧
      (fanOutLoop lib env ws req calls st).req = req := by
  induction ws with
  | nil => intro calls st; simp [fanOutLoop]
  | cons w ws ih =>
    intro calls st
    cases hd : specDelivers req w with
    | false =>
      rw [fanOutLoop_cons_skip lib env req w ws calls st hd,
        List.filter_cons_of_neg (by simp [hd])]
      exact ih calls st
    | true =>
      rw [fanOutLoop_cons_deliver lib env req w ws calls st hd, List.filter_cons_of_pos hd]
      cases hs : (env.TransmitMessage st w.Connector (specTransmit lib req w).2).1 with
      | none =>
        simp only
        obtain ⟨h1, h2, h3⟩ := ih (calls ++ [Call.TransmitMessage w.Connector
          (specTransmit lib req w).2])
          (env.TransmitMessage st w.Connector (specTransmit lib req w).2).2
        refine ⟨?_, h2, h3⟩
        rw [h1, transmitCalls_append]
        simp [transmitCalls, specTransmit]
      | some err =>
        simp only
        obtain ⟨h1, h2, h3⟩ := ih (calls ++ [Call.TransmitMessage w.Connector
          (specTransmit lib req w).2] ++
            (handleError env (env.TransmitMessage st w.Connector (specTransmit lib req w).2).2
              err req.AppName req.ReceiverId w.DeviceID w.Source).1)
          (handleError env (env.TransmitMessage st w.Connector (specTransmit lib req w).2).2
              err req.AppName req.ReceiverId w.DeviceID w.Source).2
        refine ⟨?_, h2, h3⟩
        rw [h1, transmitCalls_append, transmitCalls_append, transmitCalls_handleError]
        simp [transmitCalls, specTransmit]

theorem specDelivers_stampCreateTime (now : Int) (req : TransferMessageRequest)
    (w : ConnectorClientWrapper) :
    specDelivers (stampCreateTime now req) w = specDelivers req w := by
  obtain ⟨-, -, -, -, -, -, -, -, f9, f10⟩ := stampCreateTime_fields now req
  simp only [specDelivers, f9, f10]

theorem digitChar_spec (d : Nat) (hd : d < 10) :
    ('0' ≤ Nat.digitChar d ∧ Nat.digitChar d ≤ '9') ∧
      (Nat.digitChar d).toNat - '0'.toNat = d := by
  have : d = 0 ∨ d = 1 ∨ d = 2 ∨ d = 3 ∨ d = 4 ∨ d = 5 ∨ d = 6 ∨ d = 7 ∨ d = 8 ∨ d = 9 := by
    omega
  rcases this with rfl | rfl | rfl | rfl | rfl | rfl | rfl | rfl | rfl | rfl <;> decide

theorem readDigits_append (xs ys : List Char) :
    ∀ a, readDigits (xs ++ ys) a = readDigits ys (readDigits xs a) := by
  induction xs with
  | nil => intro a; rfl
  | cons x xs ih => intro a; simp [readDigits, ih]

theorem readDigits_ge (cs : List Char) : ∀ a, a ≤ readDigits cs a := by
  induction cs with
  | nil => intro a; exact Nat.le_refl a
  | cons c cs ih =>
    intro a
    have h := ih (a * 10 + (c.toNat - '0'.toNat))
    simp only [readDigits]
    omega

theorem readDigits_zeros (k : Nat) : ∀ a, readDigits (List.replicate k '0') a = a * 10 ^ k := by
  induction k with
  | zero => intro a; simp [readDigits]
  | succ k ih =>
    intro a
    simp only [List.replicate_succ, readDigits, ih]
    rw [Nat.pow_succ]
    simp only [Nat.sub_self, Nat.add_zero]
    ring

/-- With enough fuel `Nat.toDigitsCore` puts in front of `acc` a non-empty run
of digits that reads as `n` and has no more digits than `n` needs. -/
theorem toDigitsCore_spec (fuel : Nat) :
    ∀ (n : Nat) (acc : List Char), n < fuel →
      ∃ pre : List Char, Nat.toDigitsCore 10 fuel n acc = pre ++ acc ∧ pre ≠ [] ∧
        (∀ c ∈ pre, '0' ≤ c ∧ c ≤ '9') ∧
        (∀ a, readDigits pre a = a * 10 ^ pre.length + n) ∧
        n < 10 ^ pre.length ∧ (0 < n → 10 ^ pre.length ≤ 10 * n) := by
  induction fuel with
  | zero => intro n acc h; omega
  | succ fuel ih =>
    intro n acc hn
    have hmod : n % 10 < 10 := Nat.mod_lt _ (by omega)
    obtain ⟨hdig, hval⟩ := digitChar_spec (n % 10) hmod
    simp only [Nat.toDigitsCore]
    by_cases h0 : n / 10 = 0
    · simp only [h0, if_true]
      refine ⟨[Nat.digitChar (n % 10)], rfl, by simp, ?_, ?_, ?_, ?_⟩
      · intro c hc
        rw [List.mem_singleton] at hc
        subst hc
        exact hdig
      · intro a
        simp only [readDigits, hval, List.length_singleton, pow_one]
        omega
      · simp only [List.length_singleton, pow_one]
        omega
      · intro hpos
        simp only [List.length_singleton, pow_one]
        omega
    · simp only [h0, if_false]
      obtain ⟨pre, hpre, -, hall, hread, hlt, hge⟩ :=
        ih (n / 10) (Nat.digitChar (n % 10) :: acc) (by omega)
      refine ⟨pre ++ [Nat.digitChar (n % 10)], by rw [hpre]; simp, by simp, ?_, ?_, ?_, ?_⟩
      · intro c hc
        rw [List.mem_append, List.mem_singleton] at hc
        rcases hc with hc | hc
        · exact hall c hc
        · subst hc; exact hdig
      · intro a
        rw [readDigits_append, hread]
        simp only [readDigits, hval, List.length_append, List.length_singleton, Nat.pow_succ]
        nlinarith [Nat.div_add_mod n 10]
      · simp only [List.length_append, List.length_singleton, Nat.pow_succ]
        omega
      · intro _
        have h1 := hge (by omega)
        simp only [List.length_append, List.length_singleton, Nat.pow_succ]
        omega

theorem decimal_spec (n : Nat) :
    decimal n ≠ [] ∧ (∀ c ∈ decimal n, '0' ≤ c ∧ c ≤ '9') ∧
      (∀ a, readDigits (decimal n) a = a * 10 ^ (decimal n).length + n) ∧
      n < 10 ^ (decimal n).length ∧ (0 < n → 10 ^ (decimal n).length ≤ 10 * n) := by
  obtain ⟨pre, hpre, hne, hall, hread, hlt, hge⟩ := toDigitsCore_spec (n + 1) n [] (by omega)
  have h : decimal n = pre := by
    simp only [decimal, Nat.toDigits, hpre, List.append_nil]
  rw [h]
  exact ⟨hne, hall, hread, hlt, hge⟩

theorem decimal_length_le (n e : Nat) (hn : n < 10 ^ e) (he : 0 < e) :
    (decimal n).length ≤ e :=
  Nat.toDigitsCore_length 10 (by decide) (n + 1) n e hn he

theorem parseUintLoop_digits (cs : List Char) :
    ∀ a, (∀ c ∈ cs, '0' ≤ c ∧ c ≤ '9') → readDigits cs a ≤ maxUint64 →
      parseUintLoop cs a = (readDigits cs a, none) := by
  induction cs with
  | nil => intro a _ _; rfl
  | cons c cs ih =>
    intro a hall hle
    have hc := hall c (List.mem_cons_self c cs)
    have hrest : ∀ d ∈ cs, '0' ≤ d ∧ d ≤ '9' := fun d hd => hall d (List.mem_cons_of_mem c hd)
    have hge := readDigits_ge cs (a * 10 + (c.toNat - '0'.toNat))
    simp only [readDigits] at hle
    have hmax : maxUint64 = 18446744073709551615 := by decide
    have h1 : ¬ a ≥ maxUint64 / 10 + 1 := by
      rw [hmax] at hle ⊢
      omega
    have h2 : ¬ a * 10 + (c.toNat - '0'.toNat) > maxUint64 := by omega
    simp only [parseUintLoop, hc, and_self, if_true, h1, if_false, h2, readDigits]
    exact ih _ hrest hle

theorem ParseInt_digits (cs : List Char) (hne : cs ≠ [])
    (hall : ∀ c ∈ cs, '0' ≤ c ∧ c ≤ '9') (hfit : readDigits cs 0 < 2 ^ 63) :
    ParseInt (String.mk cs) = (((readDigits cs 0 : Nat) : Int), none) := by
  have hu : ParseUint cs = (readDigits cs 0, none) := by
    unfold ParseUint
    rw [if_neg hne]
    apply parseUintLoop_digits cs 0 hall
    have hmax : maxUint64 = 18446744073709551615 := by decide
    rw [hmax]
    omega
  have hs : parseIntSigned false cs = (((readDigits cs 0 : Nat) : Int), none) := by
    unfold parseIntSigned
    rw [hu]
    have h1 : ¬ readDigits cs 0 ≥ 2 ^ 63 := by omega
    simp only [Bool.not_false, h1, and_false, if_false, Bool.false_eq_true, false_and]
  unfold ParseInt
  simp only [String.toList]
  split
  · exact absurd rfl hne
  · exact absurd (hall '+' (List.mem_cons_self _ _)).1 (by decide)
  · exact absurd (hall '-' (List.mem_cons_self _ _)).1 (by decide)
  · exact hs

theorem zeroPad_spec (n : Nat) (hn : n < 10000) :
    zeroPad 4 (decimal n) ≠ [] ∧ (∀ c ∈ zeroPad 4 (decimal n), '0' ≤ c ∧ c ≤ '9') ∧
      ∀ a, readDigits (zeroPad 4 (decimal n)) a = a * 10000 + n := by
  obtain ⟨hne, hall, hread, -, -⟩ := decimal_spec n
  have hlen : (decimal n).length ≤ 4 := decimal_length_le n 4 (by omega) (by decide)
  refine ⟨?_, ?_, ?_⟩
  · simp [zeroPad, hne]
  · intro c hc
    simp only [zeroPad, List.mem_append, List.mem_replicate] at hc
    rcases hc with ⟨-, hc⟩ | hc
    · subst hc; decide
    · exact hall c hc
  · intro a
    simp only [zeroPad, readDigits_append, readDigits_zeros, hread]
    rw [Nat.mul_assoc, ← Nat.pow_add, Nat.sub_add_cancel hlen]

/-- The value `genTTDBSeq` composes from the unix seconds `u` and a counter `c`
of at most four digits, when it fits 63 bits. -/
theorem ParseInt_sprintf (u c : Int) (hu : 0 ≤ u) (hc0 : 0 ≤ c) (hc : c ≤ 9999)
    (hfit : u * 10000 + c ≤ maxInt64) :
    ParseInt (sprintfD u ++ sprintf04d c) = (u * 10000 + c, none) := by
  obtain ⟨hne, hall, hread, -, -⟩ := decimal_spec u.natAbs
  obtain ⟨-, hall2, hread2⟩ := zeroPad_spec c.natAbs (by omega)
  have hu2 : ¬ u < 0 := by omega
  have hc2 : ¬ c < 0 := by omega
  have happ : sprintfD u ++ sprintf04d c =
      String.mk (decimal u.natAbs ++ zeroPad 4 (decimal c.natAbs)) := by
    simp only [sprintfD, sprintf04d, hu2, hc2, if_false]
    rfl
  have hval : readDigits (decimal u.natAbs ++ zeroPad 4 (decimal c.natAbs)) 0 =
      u.natAbs * 10000 + c.natAbs := by
    rw [readDigits_append, hread2, hread]
    simp
  have hmaxI : maxInt64 = 9223372036854775807 := by decide
  rw [happ, ParseInt_digits _ (by simp [hne])
    (by
      intro d hd
      rw [List.mem_append] at hd
      rcases hd with hd | hd
      · exact hall d hd
      · exact hall2 d hd)
    (by rw [hval]; rw [hmaxI] at hfit; omega), hval]
  congr 1
  push_cast
  rw [abs_of_nonneg hu, abs_of_nonneg hc0]

theorem parseUintLoop_overflow (cs : List Char) :
    ∀ a, a ≤ maxUint64 → (∀ c ∈ cs, '0' ≤ c ∧ c ≤ '9') → maxUint64 < readDigits cs a →
      parseUintLoop cs a = (maxUint64, some .ErrRange) := by
  induction cs with
  | nil =>
    intro a ha _ h
    simp only [readDigits] at h
    omega
  | cons c cs ih =>
    intro a _ hall hbig
    have hc := hall c (List.mem_cons_self c cs)
    have hrest : ∀ d ∈ cs, '0' ≤ d ∧ d ≤ '9' := fun d hd => hall d (List.mem_cons_of_mem c hd)
    simp only [readDigits] at hbig
    simp only [parseUintLoop, hc, and_self, if_true]
    by_cases h1 : a ≥ maxUint64 / 10 + 1
    · simp only [h1, if_true]
    · simp only [h1, if_false]
      by_cases h2 : a * 10 + (c.toNat - '0'.toNat) > maxUint64
      · simp only [h2, if_true]
      · simp only [h2, if_false]
        exact ih _ (by omega) hrest hbig

theorem ParseInt_digits_overflow (cs : List Char) (hne : cs ≠ [])
    (hall : ∀ c ∈ cs, '0' ≤ c ∧ c ≤ '9') (hbig : 2 ^ 63 ≤ readDigits cs 0) :
    ParseInt (String.mk cs) = (maxInt64, some .ErrRange) := by
  have hmax : maxUint64 = 18446744073709551615 := by decide
  have hs : parseIntSigned false cs = (maxInt64, some .ErrRange) := by
    unfold parseIntSigned ParseUint
    rw [if_neg hne]
    by_cases hle : readDigits cs 0 ≤ maxUint64
    · rw [parseUintLoop_digits cs 0 hall hle]
      have hb : (9223372036854775808 : Nat) ≤ readDigits cs 0 := by omega
      simp [hb]
    · rw [parseUintLoop_overflow cs 0 (by omega) hall (by omega)]
      simp [hmax]
  unfold ParseInt
  simp only [String.toList]
  split
  · exact absurd rfl hne
  · exact absurd (hall '+' (List.mem_cons_self _ _)).1 (by decide)
  · exact absurd (hall '-' (List.mem_cons_self _ _)).1 (by decide)
  · exact hs

theorem zeroPad_general (n : Nat) :
    (∀ c ∈ zeroPad 4 (decimal n), '0' ≤ c ∧ c ≤ '9') ∧
      ∀ a, readDigits (zeroPad 4 (decimal n)) a = a * 10 ^ padWidth n + n := by
  obtain ⟨-, hall, hread, -, -⟩ := decimal_spec n
  refine ⟨?_, ?_⟩
  · intro c hc
    simp only [zeroPad, List.mem_append, List.mem_replicate] at hc
    rcases hc with ⟨-, hc⟩ | hc
    · subst hc; decide
    · exact hall c hc
  · intro a
    simp only [zeroPad, readDigits_append, readDigits_zeros, hread, padWidth]
    rw [Nat.mul_assoc, ← Nat.pow_add]
    congr 3
    omega

/-- What `genTTDBSeq` reads back from the number it wrote: the number when it
fits 63 bits, the largest `int64` otherwise. -/
theorem ParseInt_composed (u c : Int) (hu : 0 ≤ u) (hc0 : 0 ≤ c) :
    ParseInt (sprintfD u ++ sprintf04d c) =
      if composed u.natAbs c.natAbs < 2 ^ 63 then
        (((composed u.natAbs c.natAbs : Nat) : Int), none)
      else (maxInt64, some NumError.ErrRange) := by
  obtain ⟨hne, hall, hread, -, -⟩ := decimal_spec u.natAbs
  obtain ⟨hall2, hread2⟩ := zeroPad_general c.natAbs
  have hu2 : ¬ u < 0 := by omega
  have hc2 : ¬ c < 0 := by omega
  have happ : sprintfD u ++ sprintf04d c =
      String.mk (decimal u.natAbs ++ zeroPad 4 (decimal c.natAbs)) := by
    simp only [sprintfD, sprintf04d, hu2, hc2, if_false]
    rfl
  have hval : readDigits (decimal u.natAbs ++ zeroPad 4 (decimal c.natAbs)) 0 =
      composed u.natAbs c.natAbs := by
    rw [readDigits_append, hread2, hread]
    simp [composed]
  have hall3 : ∀ d ∈ decimal u.natAbs ++ zeroPad 4 (decimal c.natAbs), '0' ≤ d ∧ d ≤ '9' := by
    intro d hd
    rw [List.mem_append] at hd
    rcases hd with hd | hd
    · exact hall d hd
    · exact hall2 d hd
  rw [happ]
  by_cases hfit : composed u.natAbs c.natAbs < 2 ^ 63
  · rw [if_pos hfit, ParseInt_digits _ (by simp [hne]) hall3 (by rw [hval]; exact hfit), hval]
  · rw [if_neg hfit, ParseInt_digits_overflow _ (by simp [hne]) hall3 (by rw [hval]; omega)]

theorem padWidth_ge (c : Nat) : 4 ≤ padWidth c := by
  simp only [padWidth]
  omega

theorem genTTDBSeq_value {σ : Type} (env : Env σ) (st : σ) (appID userID : String)
    (tm : Time) (c : Int)
    (hgen : (env.GenSequenceID st (seqKeyOf appID userID tm) SeqExpireSeconds).1 = .ok c) :
    (genTTDBSeq env st appID userID tm).1 =
      .ok (ParseInt (sprintfD tm.unix ++ sprintf04d c)).1 := by
  rw [genTTDBSeq_ok env st appID userID tm c hgen]

/-- C8, as the code has it. For a time with non-negative unix seconds `u` and a
counter `c` in 1..9999 answered by the counter store, with `u*10000 + c` no
more than the largest `int64`, `genTTDBSeq` returns `u*10000 + c` (the digits of
`u` followed by `c` padded to four digits) and a nil error; so two calls in
that second whose counters are `c < c2` (1 and 2, say) return two values, the
second strictly greater. -/
theorem C8_sequence_composition {σ : Type} (env : Env σ) (st : σ) (appID userID : String)
    (tm : Time) (c : Int) (hu : 0 ≤ tm.unix) (hc1 : 1 ≤ c) (hc2 : c ≤ 9999)
    (hfit : tm.unix * 10000 + c ≤ maxInt64)
    (hgen : (env.GenSequenceID st (seqKeyOf appID userID tm) SeqExpireSeconds).1 = .ok c) :
    (genTTDBSeq env st appID userID tm).1 = .ok (tm.unix * 10000 + c) ∧
    ∀ (env2 : Env σ) (st2 : σ) (c2 : Int), c < c2 → c2 ≤ 9999 →
      tm.unix * 10000 + c2 ≤ maxInt64 →
      (env2.GenSequenceID st2 (seqKeyOf appID userID tm) SeqExpireSeconds).1 = .ok c2 →
      (genTTDBSeq env2 st2 appID userID tm).1 = .ok (tm.unix * 10000 + c2) ∧
        tm.unix * 10000 + c < tm.unix * 10000 + c2 := by
  refine ⟨?_, ?_⟩
  · rw [genTTDBSeq_value env st appID userID tm c hgen,
      ParseInt_sprintf tm.unix c hu (by omega) hc2 hfit]
  · intro env2 st2 c2 hlt hc2b hfit2 hgen2
    refine ⟨?_, by omega⟩
    rw [genTTDBSeq_value env2 st2 appID userID tm c2 hgen2,
      ParseInt_sprintf tm.unix c2 hu (by omega) hc2b hfit2]

theorem C8_sequence_composition_witness :
    (0 : Int) ≤ timeA.unix ∧ timeA.unix * 10000 + 1 ≤ maxInt64 ∧
    (genTTDBSeq (counterEnv 1) 0 "0" "42" timeA).1 = .ok 17000000000001 ∧
    (genTTDBSeq (counterEnv 2) 0 "0" "42" timeA).1 = .ok 17000000000002 :=
  have h := C8_sequence_composition (counterEnv 1) 0 "0" "42" timeA 1 (by decide) (by decide)
    (by decide) (by decide) rfl
  ⟨by decide, by decide, h.1,
    (h.2 (counterEnv 2) 0 2 (by decide) (by decide) (by decide) rfl).1⟩

/-- C8 fails as stated. At the time 10^15 seconds after the epoch (unix seconds
not negative) with the counter 1, the digits written are those of 10^19 + 1,
more than the largest `int64`: `ParseInt` answers a range error and the largest
`int64`, the error is dropped, and `genTTDBSeq` returns 9223372036854775807,
not `u*10000 + c`. -/
theorem C8_counterexample :
    (0 : Int) ≤ farTime.unix ∧
    sprintfD farTime.unix ++ sprintf04d 1 = "10000000000000000001" ∧
    (genTTDBSeq (counterEnv 1) 0 "0" "42" farTime).1 = .ok 9223372036854775807 ∧
    (genTTDBSeq (counterEnv 1) 0 "0" "42" farTime).1 ≠ .ok (farTime.unix * 10000 + 1) := by
  decide

theorem composed_lt_of_padWidth_lt (u c1 c2 : Nat) (h : padWidth c1 < padWidth c2)
    (hc2 : 0 < c2) : composed u c1 < composed u c2 := by
  obtain ⟨-, -, -, hlt1, -⟩ := decimal_spec c1
  obtain ⟨-, -, -, -, hge2⟩ := decimal_spec c2
  have hge2 := hge2 hc2
  have h4 := padWidth_ge c1
  have hp2 : padWidth c2 = (decimal c2).length := by
    simp only [padWidth] at h h4 ⊢
    omega
  have hlen1 : (decimal c1).length ≤ padWidth c1 := by
    simp only [padWidth]
    omega
  have h1 : c1 < 10 ^ padWidth c1 :=
    Nat.lt_of_lt_of_le hlt1 (Nat.pow_le_pow_right (by decide) hlen1)
  have h2 : 10 ^ (padWidth c1 + 1) ≤ 10 ^ padWidth c2 := Nat.pow_le_pow_right (by decide) h
  have h3 : 10 ^ padWidth c1 ≤ 10 ^ padWidth c2 := Nat.pow_le_pow_right (by decide) (by omega)
  have h5 : u * 10 ^ padWidth c1 ≤ u * 10 ^ padWidth c2 := Nat.mul_le_mul_left u h3
  rw [hp2] at h2 h5
  rw [Nat.pow_succ] at h2
  simp only [composed, hp2]
  omega

theorem composed_injective (u c1 c2 : Nat) (hc1 : 0 < c1) (hc2 : 0 < c2)
    (h : composed u c1 = composed u c2) : c1 = c2 := by
  rcases Nat.lt_trichotomy (padWidth c1) (padWidth c2) with hlt | heq | hgt
  · have := composed_lt_of_padWidth_lt u c1 c2 hlt hc2
    omega
  · simp only [composed, heq] at h
    omega
  · have := composed_lt_of_padWidth_lt u c2 c1 hgt hc1
    omega

theorem ParseInt_composed_ok (u c : Int) (hu : 0 ≤ u) (hc0 : 0 ≤ c)
    (hok : (ParseInt (sprintfD u ++ sprintf04d c)).2 = none) :
    (ParseInt (sprintfD u ++ sprintf04d c)).1 = ((composed u.natAbs c.natAbs : Nat) : Int) := by
  rw [ParseInt_composed u c hu hc0] at hok ⊢
  by_cases hfit : composed u.natAbs c.natAbs < 2 ^ 63
  · rw [if_pos hfit]
  · rw [if_neg hfit] at hok
    simp at hok

/-- C9, as the code has it. For two calls whose counter store answers the
positive counters `c1` and `c2`, at times with unix seconds `u1 ≥ 0` and `u2`:
both return a sequence; when `u1 < u2`, `c1` is at most 9999 and `u2*10000`
is within `int64`, the first is less than the second, whatever the size of
`c2`; when `u1 = u2`, `c1 ≠ c2` and `ParseInt` reports no range error for
either, the two differ. -/
theorem C9_sequence_order {σ : Type} (env1 env2 : Env σ) (st1 st2 : σ)
    (appID userID : String) (tm1 tm2 : Time) (c1 c2 : Int)
    (hu : 0 ≤ tm1.unix) (hc1 : 1 ≤ c1) (hc2 : 1 ≤ c2)
    (hgen1 : (env1.GenSequenceID st1 (seqKeyOf appID userID tm1) SeqExpireSeconds).1 = .ok c1)
    (hgen2 : (env2.GenSequenceID st2 (seqKeyOf appID userID tm2) SeqExpireSeconds).1 = .ok c2) :
    ∃ s1 s2 : Int,
      (genTTDBSeq env1 st1 appID userID tm1).1 = .ok s1 ∧
      (genTTDBSeq env2 st2 appID userID tm2).1 = .ok s2 ∧
      (tm1.unix < tm2.unix → c1 ≤ 9999 → tm2.unix * 10000 ≤ maxInt64 → s1 < s2) ∧
      (tm1.unix = tm2.unix → c1 ≠ c2 →
        (ParseInt (sprintfD tm1.unix ++ sprintf04d c1)).2 = none →
        (ParseInt (sprintfD tm2.unix ++ sprintf04d c2)).2 = none → s1 ≠ s2) := by
  refine ⟨_, _, genTTDBSeq_value env1 st1 appID userID tm1 c1 hgen1,
    genTTDBSeq_value env2 st2 appID userID tm2 c2 hgen2, ?_, ?_⟩
  · intro hlt hsmall hfit
    have hmaxI : maxInt64 = 9223372036854775807 := by decide
    rw [ParseInt_sprintf tm1.unix c1 hu (by omega) hsmall (by rw [hmaxI] at hfit ⊢; omega),
      ParseInt_composed tm2.unix c2 (by omega) (by omega)]
    have hpw : 10 ^ 4 ≤ 10 ^ padWidth c2.natAbs :=
      Nat.pow_le_pow_right (by decide) (padWidth_ge c2.natAbs)
    have hmul : tm2.unix.natAbs * 10 ^ 4 ≤ tm2.unix.natAbs * 10 ^ padWidth c2.natAbs :=
      Nat.mul_le_mul_left _ hpw
    by_cases hfit2 : composed tm2.unix.natAbs c2.natAbs < 2 ^ 63
    · rw [if_pos hfit2]
      simp only [composed] at hfit2 ⊢
      have hcast : tm2.unix * 10000 + c2 ≤
          ((tm2.unix.natAbs * 10 ^ padWidth c2.natAbs + c2.natAbs : Nat) : Int) := by
        have ha : |tm2.unix| = tm2.unix := abs_of_nonneg (by omega)
        have hb : |c2| = c2 := abs_of_nonneg (by omega)
        have h3 : ((tm2.unix.natAbs * 10 ^ 4 : Nat) : Int) ≤
            ((tm2.unix.natAbs * 10 ^ padWidth c2.natAbs : Nat) : Int) := by exact_mod_cast hmul
        push_cast at h3 ⊢
        rw [ha] at h3 ⊢
        rw [hb]
        linarith
      show tm1.unix * 10000 + c1 <
        ((tm2.unix.natAbs * 10 ^ padWidth c2.natAbs + c2.natAbs : Nat) : Int)
      omega
    · rw [if_neg hfit2]
      show tm1.unix * 10000 + c1 < maxInt64
      rw [hmaxI] at hfit ⊢
      omega
  · intro heq hne hok1 hok2
    rw [ParseInt_composed_ok tm1.unix c1 hu (by omega) hok1,
      ParseInt_composed_ok tm2.unix c2 (by omega) (by omega) hok2, ← heq]
    intro h
    have h' : composed tm1.unix.natAbs c1.natAbs = composed tm1.unix.natAbs c2.natAbs := by
      exact_mod_cast h
    have := composed_injective _ _ _ (by omega) (by omega) h'
    omega

theorem C9_sequence_order_witness :
    (0 : Int) ≤ timeA.unix ∧ timeA.unix < timeB.unix ∧
    ∃ s1 s2 : Int,
      (genTTDBSeq (counterEnv 9999) 0 "0" "42" timeA).1 = .ok s1 ∧
      (genTTDBSeq (counterEnv 20000) 0 "0" "42" timeB).1 = .ok s2 ∧ s1 < s2 :=
  match C9_sequence_order (counterEnv 9999) (counterEnv 20000) 0 0 "0" "42" timeA timeB
    9999 20000 (by decide) (by decide) (by decide) rfl rfl with
  | ⟨s1, s2, h1, h2, hord, _⟩ =>
    ⟨by decide, by decide, s1, s2, h1, h2, hord (by decide) (by decide) (by decide)⟩

/-- C9 fails as stated. One second apart (unix seconds 1700000000 and
1700000001), the positive counters 10000 and 1 give the sequences
170000000010000 and 17000000010001: the earlier second has the greater
sequence. -/
theorem C9_counterexample :
    timeA.unix < timeB.unix ∧
    (genTTDBSeq (counterEnv 10000) 0 "0" "42" timeA).1 = .ok 170000000010000 ∧
    (genTTDBSeq (counterEnv 1) 0 "0" "42" timeB).1 = .ok 17000000010001 ∧
    ¬ ((170000000010000 : Int) < 17000000010001) := by
  decide

theorem len_pos_iff (s : String) : len s > 0 ↔ s ≠ "" := by
  rw [gt_iff_lt, Nat.pos_iff_ne_zero, Ne, len_eq_zero_iff]

/-- C10. For a template `t` without parameters and a locale `l`, `parseI18n`
follows the resolution order: the entry of `t.Locales` for `l` when there is
one (also when `t.Value` is not empty); otherwise `t.Value` when it is not
empty; otherwise the entry for "en-US" when there is one; otherwise, when
`t.Locales` is empty, the empty string. In each case the result is non-nil,
its `Value` is the chosen string as it is, and its `Locales` and `Params` are
empty. -/
theorem C10_parseI18n_resolution (lib : Lib) (t : I18N) (l : String) (hp : t.Params = []) :
    (∀ s, t.Locales.lookup l = some s →
      parseI18n lib t l = some { Value := s, Locales := [], Params := [] }) ∧
    (t.Locales.lookup l = none → t.Value ≠ "" →
      parseI18n lib t l = some { Value := t.Value, Locales := [], Params := [] }) ∧
    (t.Locales.lookup l = none → t.Value = "" →
      ∀ s, t.Locales.lookup "en-US" = some s →
        parseI18n lib t l = some { Value := s, Locales := [], Params := [] }) ∧
    (t.Locales.lookup l = none → t.Value = "" → t.Locales.lookup "en-US" = none →
      t.Locales = [] →
        parseI18n lib t l = some { Value := "", Locales := [], Params := [] }) := by
  refine ⟨?_, ?_, ?_, ?_⟩
  · intro s h
    simp [parseI18n, h, hp]
  · intro h hv
    have hlen : len t.Value > 0 := (len_pos_iff t.Value).2 hv
    simp [parseI18n, h, hp, hlen]
  · intro h hv s hs
    have hlen : ¬ len t.Value > 0 := fun hpos => (len_pos_iff t.Value).1 hpos hv
    simp only [parseI18n, h, hp, hlen, DefaultLocale, hs]
    simp
  · intro h hv hs hl
    have hlen : ¬ len t.Value > 0 := fun hpos => (len_pos_iff t.Value).1 hpos hv
    simp only [parseI18n, h, hp, hlen, DefaultLocale, hs, hl]
    simp

theorem C10_parseI18n_resolution_witness :
    parseI18n scenarioLib { Value := "Hi", Locales := [("fr", "Salut")], Params := [] } "fr" =
      some { Value := "Salut", Locales := [], Params := [] } ∧
    parseI18n scenarioLib { Value := "Hi", Locales := [("fr", "Salut")], Params := [] } "de" =
      some { Value := "Hi", Locales := [], Params := [] } :=
  ⟨(C10_parseI18n_resolution scenarioLib
      { Value := "Hi", Locales := [("fr", "Salut")], Params := [] } "fr" rfl).1 "Salut"
      (by decide),
    (C10_parseI18n_resolution scenarioLib
      { Value := "Hi", Locales := [("fr", "Salut")], Params := [] } "de" rfl).2.1
      (by decide) (by decide)⟩

/-- What `parseI18n` returns, in terms of the string the resolution order
chooses. -/
theorem parseI18n_eq_chosen (lib : Lib) (t : I18N) (l : String) :
    parseI18n lib t l =
      (chosenString t l).map fun c =>
        { Value := if t.Params.length > 0 then Sprintf lib.sprintfOther c t.Params else c,
          Locales := [], Params := [] } := by
  unfold parseI18n chosenString
  cases h1 : t.Locales.lookup l with
  | some s => rfl
  | none =>
    by_cases hv : t.Value = ""
    · have hlen : ¬ len t.Value > 0 := fun hpos => (len_pos_iff t.Value).1 hpos hv
      simp only [hlen, if_false, DefaultLocale]
      simp only [hv, ne_eq, not_true_eq_false, if_false]
      cases h2 : t.Locales.lookup "en-US" with
      | some s => rfl
      | none =>
        cases hl : t.Locales with
        | nil => simp
        | cons x xs => simp
    · have hlen : len t.Value > 0 := (len_pos_iff t.Value).2 hv
      simp [hlen, hv]

/-- C11. `parseI18n` is a total function: it returns a result or nil and
raises nothing. It returns nil exactly when `t.Value` is empty, `t.Locales`
is not empty and has an entry neither for the locale nor for "en-US"; the
template with the one entry `fr: "x"` resolved at "de" gives nil. -/
theorem C11_parseI18n_nil_iff (lib : Lib) (t : I18N) (l : String) :
    (parseI18n lib t l = none ↔
      t.Value = "" ∧ t.Locales ≠ [] ∧ t.Locales.lookup l = none ∧
        t.Locales.lookup "en-US" = none) ∧
    parseI18n lib { Value := "", Locales := [("fr", "x")], Params := [] } "de" = none := by
  refine ⟨?_, rfl⟩
  rw [parseI18n_eq_chosen, Option.map_eq_none']
  unfold chosenString
  cases h1 : t.Locales.lookup l with
  | some s => simp
  | none =>
    by_cases hv : t.Value = ""
    · cases h2 : t.Locales.lookup "en-US" with
      | some s => simp [hv]
      | none =>
        by_cases hl : t.Locales = []
        · simp [hv, hl]
        · simp [hv, hl]
    · simp [hv]

theorem sprintfPlain_literal (seg : List Char) (hseg : '%' ∉ seg) (rest : List Char)
    (args : List String) :
    sprintfPlain (seg ++ rest) args = (sprintfPlain rest args).map fun r => seg ++ r := by
  induction seg with
  | nil => simp
  | cons c cs ih =>
    have hc : c ≠ '%' := fun h => hseg (h ▸ List.mem_cons_self _ _)
    have hcs : '%' ∉ cs := fun h => hseg (List.mem_cons_of_mem _ h)
    have step : sprintfPlain (c :: (cs ++ rest)) args =
        (sprintfPlain (cs ++ rest) args).map fun r => c :: r := by
      rw [sprintfPlain]
      all_goals (intros; simp_all)
    rw [List.cons_append, step, ih hcs, Option.map_map]
    rfl

theorem verbCount_literal (seg : List Char) (hseg : '%' ∉ seg) (rest : List Char) :
    verbCount (seg ++ rest) = verbCount rest := by
  induction seg with
  | nil => simp
  | cons c cs ih =>
    have hc : c ≠ '%' := fun h => hseg (h ▸ List.mem_cons_self _ _)
    have hcs : '%' ∉ cs := fun h => hseg (List.mem_cons_of_mem _ h)
    have step : verbCount (c :: (cs ++ rest)) = verbCount (cs ++ rest) := by
      rw [verbCount]
      all_goals (intros; simp_all)
    rw [List.cons_append, step, ih hcs]

theorem joinParts_cons_toList (f : String → String) (p s : String)
    (rest : List (String × String)) :
    (joinParts f ((p, s) :: rest)).toList =
      (f p).toList ++ (s.toList ++ (joinParts f rest).toList) := by
  simp only [joinParts, String.toList, String.data_append, List.append_assoc]

theorem sprintfPlain_parts (parts : List (String × String))
    (hsegs : ∀ ps ∈ parts, '%' ∉ ps.2.toList) :
    sprintfPlain (joinParts (fun _ => "%s") parts).toList (parts.map Prod.fst) =
        some (joinParts id parts).toList ∧
      verbCount (joinParts (fun _ => "%s") parts).toList = parts.length := by
  induction parts with
  | nil => exact ⟨rfl, rfl⟩
  | cons ps rest ih =>
    obtain ⟨p, s⟩ := ps
    have hs : '%' ∉ s.toList := hsegs (p, s) (List.mem_cons_self _ _)
    obtain ⟨ih1, ih2⟩ := ih fun q hq => hsegs q (List.mem_cons_of_mem _ hq)
    have hfmt : ("%s" : String).toList = ['%', 's'] := rfl
    rw [joinParts_cons_toList, joinParts_cons_toList, hfmt]
    constructor
    · show sprintfPlain ('%' :: 's' :: (s.toList ++ (joinParts (fun _ => "%s") rest).toList))
        (p :: rest.map Prod.fst) = _
      rw [sprintfPlain, sprintfPlain_literal s.toList hs, ih1]
      rfl
    · show verbCount ('%' :: 's' :: (s.toList ++ (joinParts (fun _ => "%s") rest).toList)) = _
      rw [verbCount, verbCount_literal s.toList hs, ih2]
      · rfl
      all_goals (intros; simp_all)

/-- `Sprintf` on a format made of literal text and one `%s` per operand puts
each operand in the place of its `%s`. -/
theorem Sprintf_placeholders (other : String → List String → String) (s0 : String)
    (parts : List (String × String)) (hs0 : '%' ∉ s0.toList)
    (hsegs : ∀ ps ∈ parts, '%' ∉ ps.2.toList) :
    Sprintf other (s0 ++ joinParts (fun _ => "%s") parts) (parts.map Prod.fst) =
      s0 ++ joinParts id parts := by
  obtain ⟨h1, h2⟩ := sprintfPlain_parts parts hsegs
  have hfmt : (s0 ++ joinParts (fun _ => "%s") parts).toList =
      s0.toList ++ (joinParts (fun _ => "%s") parts).toList := by
    simp only [String.toList, String.data_append]
  unfold Sprintf
  rw [hfmt, sprintfPlain_literal s0.toList hs0, verbCount_literal s0.toList hs0, h1, h2]
  simp only [Option.map_some']
  have hdrop : List.drop parts.length (parts.map Prod.fst) = [] := by
    apply List.drop_eq_nil_of_le
    simp
  rw [hdrop]
  apply String.ext
  simp [extraOperands, String.data_append, String.toList]

/-- C12. For a template whose parameters `p1..pn` are not empty and whose
chosen string is literal text with exactly `n` placeholders `%s` and no other
`%` (the text `s0`, then for each parameter a `%s` and the text after it),
`parseI18n` returns the chosen string with the i-th `%s` replaced by `pi`; and
for a template without parameters it returns the chosen string as it is,
whatever it contains. -/
theorem C12_parseI18n_substitution (lib : Lib) (t : I18N) (l s0 : String)
    (parts : List (String × String)) (hparts : parts ≠ [])
    (hparams : t.Params = parts.map Prod.fst)
    (hchosen : chosenString t l = some (s0 ++ joinParts (fun _ => "%s") parts))
    (hs0 : '%' ∉ s0.toList) (hsegs : ∀ ps ∈ parts, '%' ∉ ps.2.toList) :
    parseI18n lib t l =
      some { Value := s0 ++ joinParts id parts, Locales := [], Params := [] } ∧
    ∀ (t0 : I18N) (l0 c : String), t0.Params = [] → chosenString t0 l0 = some c →
      parseI18n lib t0 l0 = some { Value := c, Locales := [], Params := [] } := by
  constructor
  · have hlen : t.Params.length > 0 := by
      rw [hparams, List.length_map]
      exact List.length_pos.2 hparts
    rw [parseI18n_eq_chosen, hchosen]
    simp only [Option.map_some', hlen, if_true]
    rw [hparams, Sprintf_placeholders lib.sprintfOther s0 parts hs0 hsegs]
  · intro t0 l0 c hp hc
    rw [parseI18n_eq_chosen, hc]
    simp [hp]

theorem C12_parseI18n_substitution_witness :
    parseI18n scenarioLib
        { Value := "", Locales := [("fr", "Bonjour %s")], Params := ["Sam"] } "fr" =
      some { Value := "Bonjour Sam", Locales := [], Params := [] } ∧
    parseI18n scenarioLib { Value := "100%", Locales := [], Params := [] } "fr" =
      some { Value := "100%", Locales := [], Params := [] } :=
  have h := C12_parseI18n_substitution scenarioLib
    { Value := "", Locales := [("fr", "Bonjour %s")], Params := ["Sam"] } "fr" "Bonjour "
    [("Sam", "")] (by decide) rfl (by decide) (by decide) (by decide)
  ⟨h.1.trans (by decide),
    h.2 { Value := "100%", Locales := [], Params := [] } "fr" "100%" rfl (by decide)⟩

/-- C13. `versionNotInRange min max v` is true exactly when `min` is not empty
and `v` is below it, or `max` is not empty and `v` is above it, below and above
being the negation of `VersionGreaterThanOrEqualTo`. So: both bounds empty
gives false; only `min` gives true iff `v` is below `min`; only `max` gives
true iff `v` is above `max`; both bounds give false iff `min ≤ v ≤ max`. -/
theorem C13_versionNotInRange (min max v : String) :
    (versionNotInRange min max v = true ↔
      (min ≠ "" ∧ VersionGreaterThanOrEqualTo v min = false) ∨
        (max ≠ "" ∧ VersionGreaterThanOrEqualTo max v = false)) ∧
    versionNotInRange "" "" v = false ∧
    (min ≠ "" →
      (versionNotInRange min "" v = true ↔ VersionGreaterThanOrEqualTo v min = false)) ∧
    (max ≠ "" →
      (versionNotInRange "" max v = true ↔ VersionGreaterThanOrEqualTo max v = false)) ∧
    (min ≠ "" → max ≠ "" →
      (versionNotInRange min max v = false ↔
        VersionGreaterThanOrEqualTo v min = true ∧
          VersionGreaterThanOrEqualTo max v = true)) := by
  refine ⟨?_, ?_, ?_, ?_, ?_⟩
  · unfold versionNotInRange
    by_cases hmin : min = "" <;> by_cases hmax : max = "" <;>
      cases h1 : VersionGreaterThanOrEqualTo v min <;>
      cases h2 : VersionGreaterThanOrEqualTo max v <;>
      simp [hmin, hmax, h1, h2]
  · simp [versionNotInRange]
  · intro hmin
    unfold versionNotInRange
    cases h1 : VersionGreaterThanOrEqualTo v min <;> simp [hmin, h1]
  · intro hmax
    unfold versionNotInRange
    cases h2 : VersionGreaterThanOrEqualTo max v <;> simp [hmax, h2]
  · intro hmin hmax
    unfold versionNotInRange
    cases h1 : VersionGreaterThanOrEqualTo v min <;>
      cases h2 : VersionGreaterThanOrEqualTo max v <;>
      simp [hmin, hmax, h1, h2]

theorem C13_versionNotInRange_witness :
    versionNotInRange "2.0" "" "1.9" = true ∧ versionNotInRange "" "3.0" "3.1" = true ∧
    versionNotInRange "2.0" "3.0" "2.5" = false :=
  have h := C13_versionNotInRange "2.0" "3.0" "2.5"
  have h1 := C13_versionNotInRange "2.0" "" "1.9"
  have h2 := C13_versionNotInRange "" "3.0" "3.1"
  ⟨(h1.2.2.1 (by decide)).2 (by decide), (h2.2.2.2.1 (by decide)).2 (by decide),
    (h.2.2.2.2 (by decide) (by decide)).2 ⟨by decide, by decide⟩⟩

/-- C14, the code at the failing input. `VersionGreaterThanOrEqualTo` is the
lexical `>=` of strings: "10.0" is not greater than or equal to "2.0", though
component by component 10 is more than 2; so with only the Android minimum
"2.0" an Android endpoint at app version "10.0" is excluded. -/
theorem C14_lexical_comparison :
    VersionGreaterThanOrEqualTo "10.0" "2.0" = false ∧
    specVersionGE "10.0" "2.0" = true ∧
    isLimitVersion (androidEndpoint "10.0" "") scenarioLimit = true := by
  decide

/-- C15. `isLimitVersion` is the function the specification words: true for a
platform that is neither Android nor iOS (whatever the bounds, all empty
included); otherwise true when `versionNotInRange` of the bounds of the
platform holds of the app version, whatever the UI version and UI bound;
otherwise, with a non-empty UI version, `versionNotInRange MinUIVersion ""`
of it; otherwise false. -/
theorem C15_isLimitVersion_definition (w : ConnectorClientWrapper) (limit : LimitVersion) :
    isLimitVersion w limit = specIsLimitVersion w limit := by
  unfold isLimitVersion specIsLimitVersion
  have hui : (len w.UA.AppUIVersion ≠ 0) ↔ w.UA.AppUIVersion ≠ "" := by
    rw [Ne, len_eq_zero_iff]
  by_cases ha : w.UA.Source = CLIENT_SOURCE_ANDROID
  · simp only [ha, if_true, ne_eq, not_true_eq_false, false_and, if_false, hui]
  · by_cases hi : w.UA.Source = CLIENT_SOURCE_IOS
    · have hne : ¬ CLIENT_SOURCE_IOS = CLIENT_SOURCE_ANDROID := by decide
      simp only [hi, hne, if_true, if_false, ne_eq, not_true_eq_false, and_false,
        not_false_eq_true, hui]
    · simp only [ha, hi, if_false, ne_eq, not_false_eq_true, and_self, if_true]

theorem versionNotInRange_empty (v : String) : versionNotInRange "" "" v = false := by
  simp [versionNotInRange]

theorem isLimitVersion_android (w : ConnectorClientWrapper) (limit : LimitVersion)
    (hsrc : w.UA.Source = CLIENT_SOURCE_ANDROID) :
    isLimitVersion w limit =
      if versionNotInRange limit.MinAndroidVersion limit.MaxAndroidVersion w.UA.AppVersion
      then true
      else if w.UA.AppUIVersion ≠ "" then
        versionNotInRange limit.MinUIVersion "" w.UA.AppUIVersion
      else false := by
  have hui : (len w.UA.AppUIVersion ≠ 0) ↔ w.UA.AppUIVersion ≠ "" := by
    rw [Ne, len_eq_zero_iff]
  unfold isLimitVersion
  simp only [hsrc, if_true, hui]

/-- C16, as the code has it. For a limit whose two Android bounds are empty and
an Android endpoint, `isLimitVersion` is false whatever the app version when
the endpoint reports no UI version or the limit has no UI minimum; with a UI
version it is `versionNotInRange MinUIVersion ""` of that version. With the
limit of minimum Android version "2.0" and nothing else, an Android endpoint at
app version "1.9" is excluded and one at "2.0" is not, whatever their UI
version. -/
theorem C16_android_bounds_empty (w : ConnectorClientWrapper) (limit : LimitVersion)
    (hsrc : w.UA.Source = CLIENT_SOURCE_ANDROID)
    (hmin : limit.MinAndroidVersion = "") (hmax : limit.MaxAndroidVersion = "") :
    (w.UA.AppUIVersion = "" ∨ limit.MinUIVersion = "" → isLimitVersion w limit = false) ∧
    (w.UA.AppUIVersion ≠ "" →
      isLimitVersion w limit = versionNotInRange limit.MinUIVersion "" w.UA.AppUIVersion) ∧
    ∀ ui : String,
      isLimitVersion (androidEndpoint "1.9" ui) scenarioLimit = true ∧
      isLimitVersion (androidEndpoint "2.0" ui) scenarioLimit = false := by
  have hgate : isLimitVersion w limit =
      if w.UA.AppUIVersion ≠ "" then versionNotInRange limit.MinUIVersion "" w.UA.AppUIVersion
      else false := by
    rw [isLimitVersion_android w limit hsrc, hmin, hmax, versionNotInRange_empty]
    simp
  refine ⟨?_, ?_, ?_⟩
  · intro h
    rw [hgate]
    rcases h with h | h
    · simp [h]
    · simp [h, versionNotInRange_empty]
  · intro h
    rw [hgate, if_pos h]
  · intro ui
    have h19 : versionNotInRange "2.0" "" "1.9" = true := by decide
    have h20 : versionNotInRange "2.0" "" "2.0" = false := by decide
    have hui : versionNotInRange "" "" ui = false := versionNotInRange_empty ui
    constructor
    · rw [isLimitVersion_android _ _ rfl]
      simp [androidEndpoint, scenarioLimit, h19]
    · rw [isLimitVersion_android _ _ rfl]
      simp [androidEndpoint, scenarioLimit, h20, hui]


theorem C16_android_bounds_empty_witness :
    isLimitVersion (androidEndpoint "0.1" "") (uiOnlyLimit "5") = false ∧
    isLimitVersion (androidEndpoint "0.1" "7") (uiOnlyLimit "") = false ∧
    isLimitVersion (androidEndpoint "1.9" "3") scenarioLimit = true ∧
    isLimitVersion (androidEndpoint "2.0" "3") scenarioLimit = false :=
  have h1 := C16_android_bounds_empty (androidEndpoint "0.1" "") (uiOnlyLimit "5") rfl rfl rfl
  have h2 := C16_android_bounds_empty (androidEndpoint "0.1" "7") (uiOnlyLimit "") rfl rfl rfl
  ⟨h1.1 (Or.inl rfl), h2.1 (Or.inr rfl), (h1.2.2 "3").1, (h1.2.2 "3").2⟩

/-- C16 fails as stated. With both Android bounds empty and the UI minimum
"5", an Android endpoint at app version "1.0" that reports the UI version "3"
is excluded: the app-version check passes and the UI check is the answer. -/
theorem C16_counterexample :
    (uiOnlyLimit "5").MinAndroidVersion = "" ∧ (uiOnlyLimit "5").MaxAndroidVersion = "" ∧
    (androidEndpoint "1.0" "3").UA.Source = CLIENT_SOURCE_ANDROID ∧
    isLimitVersion (androidEndpoint "1.0" "3") (uiOnlyLimit "5") = true ∧
    isLimitVersion (androidEndpoint "1.0" "3") (uiOnlyLimit "5") ≠ false := by
  decide

theorem getOriginPushIds_iff (deviceId : String) (ids : List String) :
    getOriginPushIds deviceId ids = true ↔ deviceId ∈ ids := by
  induction ids with
  | nil => simp [getOriginPushIds]
  | cons x xs ih =>
    by_cases h : x = deviceId
    · simp [getOriginPushIds, h]
    · have h2 : ¬ deviceId = x := fun e => h e.symm
      simp [getOriginPushIds, h, h2, ih]

theorem getOriginPushLoop_none (deviceId : String) (overrides : List DeviceIdPush)
    (h : ∀ o ∈ overrides, deviceId ∉ o.DeviceIds) :
    getOriginPushLoop deviceId overrides = none := by
  induction overrides with
  | nil => rfl
  | cons o rest ih =>
    have ho : ¬ getOriginPushIds deviceId o.DeviceIds = true := fun hc =>
      h o (List.mem_cons_self _ _) ((getOriginPushIds_iff deviceId o.DeviceIds).1 hc)
    simp only [getOriginPushLoop, ho, if_false]
    exact ih fun q hq => h q (List.mem_cons_of_mem _ hq)

theorem getOriginPushLoop_first (deviceId : String) (pre : List DeviceIdPush)
    (o : DeviceIdPush) (post : List DeviceIdPush)
    (hpre : ∀ p ∈ pre, deviceId ∉ p.DeviceIds) (ho : deviceId ∈ o.DeviceIds) :
    getOriginPushLoop deviceId (pre ++ o :: post) = some o.Push := by
  induction pre with
  | nil =>
    have h := (getOriginPushIds_iff deviceId o.DeviceIds).2 ho
    simp [getOriginPushLoop, h]
  | cons p rest ih =>
    have hp : ¬ getOriginPushIds deviceId p.DeviceIds = true := fun hc =>
      hpre p (List.mem_cons_self _ _) ((getOriginPushIds_iff deviceId p.DeviceIds).1 hc)
    simp only [List.cons_append, getOriginPushLoop, hp, if_false]
    exact ih fun q hq => hpre q (List.mem_cons_of_mem _ hq)

/-- C17. `getOriginPush` returns the push of the first override, in list order,
whose device ids hold `d` (whatever the overrides after it hold, and also when
that push is nil); it returns the default push of the request when no override
holds `d`, in particular when there is no override. -/
theorem C17_getOriginPush_first_match (req : TransferMessageRequest) (d : String) :
    (∀ (pre : List DeviceIdPush) (o : DeviceIdPush) (post : List DeviceIdPush),
      req.DeviceIdPushes = pre ++ o :: post → (∀ p ∈ pre, d ∉ p.DeviceIds) →
      d ∈ o.DeviceIds → getOriginPush req d = o.Push) ∧
    ((∀ o ∈ req.DeviceIdPushes, d ∉ o.DeviceIds) → getOriginPush req d = req.Push) := by
  constructor
  · intro pre o post heq hpre ho
    unfold getOriginPush
    rw [heq, getOriginPushLoop_first d pre o post hpre ho]
    simp
  · intro h
    unfold getOriginPush
    rw [getOriginPushLoop_none d req.DeviceIdPushes h]
    simp

theorem C17_getOriginPush_first_match_witness :
    getOriginPush overrideReq "d2" = none ∧
    getOriginPush overrideReq "d3" = some { scenarioPush with Message := "second" } ∧
    getOriginPush overrideReq "d9" = some scenarioPush ∧
    getOriginPush scenarioReq "d2" = some scenarioPush :=
  ⟨(C17_getOriginPush_first_match overrideReq "d2").1 []
      { DeviceIds := ["d1", "d2"], Push := none }
      [{ DeviceIds := ["d2", "d3"], Push := some { scenarioPush with Message := "second" } }]
      rfl (by decide) (by decide),
    (C17_getOriginPush_first_match overrideReq "d3").1
      [{ DeviceIds := ["d1", "d2"], Push := none }]
      { DeviceIds := ["d2", "d3"], Push := some { scenarioPush with Message := "second" } } []
      rfl (by decide) (by decide),
    (C17_getOriginPush_first_match overrideReq "d9").2 (by decide),
    (C17_getOriginPush_first_match scenarioReq "d2").2 (by decide)⟩

/-- C18. For a transmission error `e` and `(app, user, device, source)`: when
`e` is the "user not exist" error `handleError` makes one call on the store
with these four values and an empty address, `HCAD` when the user id is "0"
and `HCADSR` otherwise, and no other call; for any other error it makes no
call and leaves the store as it is. In the fan-out loop an endpoint whose
transmission fails with `e` is followed by `handleError` and then by the
endpoints after it: the endpoint is not visited again and the loop does not
return, it runs to its end. -/
theorem C18_handleError_compensation {σ : Type} (lib : Lib) (env : Env σ) (st : σ)
    (e : GoError) (app user dev src : String) :
    (IsErrUserNotExist e = true → user = "0" →
      handleError env st e app user dev src =
        ([Call.HCAD app user dev src ""], env.HCAD st app user dev src "")) ∧
    (IsErrUserNotExist e = true → user ≠ "0" →
      handleError env st e app user dev src =
        ([Call.HCADSR app user dev src ""], env.HCADSR st app user dev src "")) ∧
    (IsErrUserNotExist e = false → handleError env st e app user dev src = ([], st)) ∧
    (∀ (req : TransferMessageRequest) (w : ConnectorClientWrapper)
      (ws : List ConnectorClientWrapper) (calls : List Call) (st0 : σ),
      specDelivers req w = true →
      (env.TransmitMessage st0 w.Connector (specTransmit lib req w).2).1 = some e →
      fanOutLoop lib env (w :: ws) req calls st0 =
        fanOutLoop lib env ws req
          (calls ++ [Call.TransmitMessage w.Connector (specTransmit lib req w).2] ++
            (handleError env (env.TransmitMessage st0 w.Connector (specTransmit lib req w).2).2
              e req.AppName req.ReceiverId w.DeviceID w.Source).1)
          (handleError env (env.TransmitMessage st0 w.Connector (specTransmit lib req w).2).2
            e req.AppName req.ReceiverId w.DeviceID w.Source).2) ∧
    ∀ (req : TransferMessageRequest) (ws : List ConnectorClientWrapper) (calls : List Call)
      (st0 : σ), (fanOutLoop lib env ws req calls st0).exit = .completed := by
  refine ⟨?_, ?_, ?_, ?_, ?_⟩
  · intro he hu
    simp [handleError, he, hu]
  · intro he hu
    simp [handleError, he, hu]
  · intro he
    simp [handleError, he]
  · intro req w ws calls st0 hd hsent
    rw [fanOutLoop_cons_deliver lib env req w ws calls st0 hd, hsent]
  · intro req ws calls st0
    exact (fanOutLoop_transmits lib env req ws calls st0).2.1

theorem C18_handleError_compensation_witness :
    handleError scenarioEnv 0 ⟨"user not exist"⟩ "app" "0" "dev" "src" =
      ([Call.HCAD "app" "0" "dev" "src" ""], 1) ∧
    handleError scenarioEnv 0 ⟨"user not exist"⟩ "app" "42" "dev" "src" =
      ([Call.HCADSR "app" "42" "dev" "src" ""], 1) ∧
    handleError scenarioEnv 0 ⟨"no conn available"⟩ "app" "42" "dev" "src" = ([], 0) ∧
    (fanOutLoop scenarioLib (rejectingEnv ⟨"user not exist"⟩) [scenarioIos, scenarioIos]
        scenarioReq [] 0).exit = .completed :=
  ⟨(C18_handleError_compensation scenarioLib scenarioEnv 0 ⟨"user not exist"⟩
      "app" "0" "dev" "src").1 (by decide) rfl,
    (C18_handleError_compensation scenarioLib scenarioEnv 0 ⟨"user not exist"⟩
      "app" "42" "dev" "src").2.1 (by decide) (by decide),
    (C18_handleError_compensation scenarioLib scenarioEnv 0 ⟨"no conn available"⟩
      "app" "42" "dev" "src").2.2.1 (by decide),
    (C18_handleError_compensation scenarioLib (rejectingEnv ⟨"user not exist"⟩) 0
      ⟨"user not exist"⟩ "app" "42" "dev" "src").2.2.2.2 scenarioReq
      [scenarioIos, scenarioIos] [] 0⟩

/-- The three ways `parseUintLoop` ends: all digits read, a syntax error with
value 0, or a range error with the largest value. -/
theorem parseUintLoop_cases (cs : List Char) :
    ∀ a, ((parseUintLoop cs a).2 = none ∧ allDigits cs = true) ∨
      parseUintLoop cs a = (0, some .ErrSyntax) ∨
      parseUintLoop cs a = (maxUint64, some .ErrRange) := by
  induction cs with
  | nil => intro a; exact Or.inl ⟨rfl, rfl⟩
  | cons c cs ih =>
    intro a
    by_cases hc : '0' ≤ c ∧ c ≤ '9'
    · by_cases h1 : a ≥ maxUint64 / 10 + 1
      · right; right
        simp [parseUintLoop, hc, h1]
      · by_cases h2 : a * 10 + (c.toNat - '0'.toNat) > maxUint64
        · right; right
          simp only [parseUintLoop, hc, and_self, if_true, h1, if_false, h2]
        · have hstep : parseUintLoop (c :: cs) a =
              parseUintLoop cs (a * 10 + (c.toNat - '0'.toNat)) := by
            simp only [parseUintLoop, hc, and_self, if_true, h1, if_false, h2]
          rw [hstep]
          rcases ih (a * 10 + (c.toNat - '0'.toNat)) with ⟨h, hd⟩ | h | h
          · left
            refine ⟨h, ?_⟩
            simp only [allDigits, List.all_cons, Bool.and_eq_true, decide_eq_true_eq]
            exact ⟨hc, by simpa [allDigits] using hd⟩
          · exact Or.inr (Or.inl h)
          · exact Or.inr (Or.inr h)
    · right; left
      simp [parseUintLoop, hc]

theorem parseIntSigned_ok (neg : Bool) (ds : List Char)
    (h : (parseIntSigned neg ds).2 = none) : (!ds.isEmpty && allDigits ds) = true := by
  unfold parseIntSigned ParseUint at h
  by_cases hne : ds = []
  · rw [if_pos hne] at h
    simp at h
  · rw [if_neg hne] at h
    have hmax : maxUint64 = 18446744073709551615 := by decide
    rcases parseUintLoop_cases ds 0 with ⟨-, hd⟩ | hs | hr
    · cases ds with
      | nil => exact absurd rfl hne
      | cons c cs => simpa using hd
    · rw [hs] at h
      simp at h
    · rw [hr] at h
      cases neg <;> simp [hmax] at h

/-- A receiver id `Atoi` accepts is an optional sign and one or more digits. -/
theorem Atoi_ok_signedDecimal (s : String) (h : (Atoi s).2 = none) :
    isSignedDecimal s = true := by
  unfold Atoi ParseInt at h
  unfold isSignedDecimal
  split at h
  · simp at h
  · next rest heq => rw [heq]; exact parseIntSigned_ok false rest h
  · next rest heq => rw [heq]; exact parseIntSigned_ok true rest h
  · next cs h1 h2 h3 =>
    have := parseIntSigned_ok false s.toList h
    split
    · next ds heq => exact absurd heq (h2 ds)
    · next ds heq => exact absurd heq (h3 ds)
    · exact this

/-- C19, as the code has it. The receiver id must denote an integer: with
reliable sends enabled, for a request whose receiver id is not an optional sign
followed by one or more decimal digits, or is rejected by `Atoi` otherwise
(out of range), the call returns a nil reply and a non-nil error before any
side effect: no call on a collaborator (no sequence, no directory lookup), the
request not written, no goroutine started. -/
theorem C19_receiver_id_integer {σ : Type} (cfg : Config) (env : Env σ) (st : σ)
    (now : Int) (tm : Time) (req : TransferMessageRequest)
    (hcfg : cfg.Service.DisableSendReliable = false)
    (hbad : isSignedDecimal req.ReceiverId = false ∨ (Atoi req.ReceiverId).2 ≠ none) :
    (TransferOnlineReliableMessage cfg env st now tm req).reply = none ∧
    (TransferOnlineReliableMessage cfg env st now tm req).err ≠ none ∧
    (TransferOnlineReliableMessage cfg env st now tm req).Untouched st req := by
  have hrej : (Atoi req.ReceiverId).2 ≠ none := by
    rcases hbad with h | h
    · intro hok
      rw [Atoi_ok_signedDecimal req.ReceiverId hok] at h
      exact absurd h (by decide)
    · exact h
  unfold TransferOnlineReliableMessage Outcome.Untouched
  simp only [hcfg, len_eq_zero_iff]
  by_cases h1 : req.ReceiverId = ""
  · simp [h1]
  · cases hA : Atoi req.ReceiverId with
    | mk v e =>
      cases e with
      | some e => simp [h1]
      | none => rw [hA] at hrej; exact absurd rfl hrej

theorem C19_receiver_id_integer_witness :
    isSignedDecimal "4x2" = false ∧
    (TransferOnlineReliableMessage scenarioCfg scenarioEnv 0 5 scenarioTime
      { scenarioReq with ReceiverId := "4x2" }).err = some ⟨"receiver id is not valid"⟩ ∧
    (TransferOnlineReliableMessage scenarioCfg scenarioEnv 0 5 scenarioTime
      { scenarioReq with ReceiverId := "4x2" }).Untouched 0
        { scenarioReq with ReceiverId := "4x2" } :=
  ⟨by decide, by decide,
    (C19_receiver_id_integer scenarioCfg scenarioEnv 0 5 scenarioTime
      { scenarioReq with ReceiverId := "4x2" } (by decide) (Or.inl (by decide))).2.2⟩

/-- C19 fails as stated. The receiver id "-5" is not the decimal representation
of a non-negative integer, yet `Atoi` accepts it: the call returns no error and
a reply, after the sequence generation and the directory lookup, with the
creation time written into the push of the request. -/
theorem C19_counterexample :
    isNonNegDecimal "-5" = false ∧ Atoi "-5" = (-5, none) ∧
    (TransferOnlineReliableMessage scenarioCfg scenarioEnv 0 5 scenarioTime
      { scenarioReq with ReceiverId := "-5" }).err = none ∧
    (TransferOnlineReliableMessage scenarioCfg scenarioEnv 0 5 scenarioTime
      { scenarioReq with ReceiverId := "-5" }).reply =
        some { IsUserOnline := true,
               DeviceIdentifiers := [⟨"android-1", true⟩, ⟨"ios-1", true⟩] } ∧
    (TransferOnlineReliableMessage scenarioCfg scenarioEnv 0 5 scenarioTime
      { scenarioReq with ReceiverId := "-5" }).calls =
        [Call.GenSequenceID "msg_seq_0_-520200114144545" 10,
         Call.PickConnectors "0" "-5" "" []] ∧
    (TransferOnlineReliableMessage scenarioCfg scenarioEnv 0 5 scenarioTime
      { scenarioReq with ReceiverId := "-5" }).req ≠ { scenarioReq with ReceiverId := "-5" } := by
  decide

/-- With a payload that decodes and a push without ticker, `processChatMsg`
faults on `push.GetTicker().GetValue()`. -/
theorem processChatMsg_nil_ticker (lib : Lib) (any : Any) (m : ChatMsg) (push : PushContent)
    (hne : any.Value ≠ []) (hdec : lib.jsonUnmarshalChatMsg any.Value = .ok m)
    (hnil : push.Ticker = none) :
    processChatMsg lib (some any) push = .panic .nilDereference := by
  have hlen : ¬ any.Value.length = 0 := fun h => hne (List.length_eq_zero.1 h)
  simp only [processChatMsg, ptypesUnmarshalAny, hlen, if_false, hdec, hnil]

/-- C20, the code at the failing input. With a payload that decodes as a chat
message (here the bytes of `{}`) and the empty push `PushContent{}` that the
fan-out uses when no push is configured, `processChatMsg` does not return: the
ticker pointer is nil and `GetValue` reads its field. With a ticker set, the
same payload is re-encoded. -/
theorem C20_processChatMsg_empty_push :
    PushContent.zero.Ticker = none ∧
    processChatMsg scenarioLib (some ⟨"type.googleapis.com/*router.ChatMsg", [123, 125]⟩)
      PushContent.zero = .panic .nilDereference ∧
    processChatMsg scenarioLib (some ⟨"type.googleapis.com/*router.ChatMsg", [123, 125]⟩)
      { PushContent.zero with Ticker := some ⟨"t", [], []⟩ } =
        .ok ⟨"type.googleapis.com/*router.ChatMsg", []⟩ :=
  ⟨rfl, processChatMsg_nil_ticker scenarioLib _ ⟨"", ""⟩ _ (by decide) rfl rfl, by decide⟩

/-- What `parseI18nAt` returns: the heap grows by the resolved copy, and the
pointer returned denotes what `parseI18n` returns on the value pointed to. -/
theorem parseI18nAt_spec (lib : Lib) (heap : I18NHeap) (ptr : Nat) (locale : String) :
    (∃ added, (parseI18nAt lib heap ptr locale).2 = heap ++ added) ∧
    ((parseI18nAt lib heap ptr locale).1.bind fun a => (parseI18nAt lib heap ptr locale).2[a]?) =
      (heap[ptr]?).bind fun t => parseI18n lib t locale := by
  unfold parseI18nAt
  cases h1 : heap[ptr]? with
  | none => exact ⟨⟨[], by simp⟩, by simp⟩
  | some t =>
    cases h2 : parseI18n lib t locale with
    | none =>
      simp only [h2]
      exact ⟨⟨[], by simp⟩, by simp [h2]⟩
    | some r =>
      simp only [h2]
      exact ⟨⟨[r], rfl⟩, by simp [h2]⟩

theorem getElem?_append_of_some (heap added : I18NHeap) (a : Nat) (t : I18N)
    (h : heap[a]? = some t) : (heap ++ added)[a]? = some t := by
  have hlt : a < heap.length := by
    by_contra hge
    rw [List.getElem?_eq_none (by omega)] at h
    exact absurd h (by simp)
  rw [List.getElem?_append_left hlt]
  exact h

/-- `processPush` field by field: each of the three templates that is set is
replaced by its resolution, the rest is kept. -/
theorem processPush_fields (lib : Lib) (p : PushContent) (l : String) :
    processPush lib p l =
      { Title := p.Title.bind fun t => parseI18n lib t l
        Value := p.Value.bind fun t => parseI18n lib t l
        Ticker := p.Ticker.bind fun t => parseI18n lib t l
        Message := p.Message
        CreateTime := p.CreateTime } := by
  obtain ⟨title, value, ticker, message, createTime⟩ := p
  unfold processPush
  cases title <;> cases value <;> cases ticker <;> simp

theorem processPushAt_fields (lib : Lib) (heap : I18NHeap) (p : PushContentPtr) (l : String) :
    processPushAt lib heap p l =
      ({ Title := (resolveField lib heap p.Title l).1
         Value := (resolveField lib (resolveField lib heap p.Title l).2 p.Value l).1
         Ticker := (resolveField lib
            (resolveField lib (resolveField lib heap p.Title l).2 p.Value l).2 p.Ticker l).1
         Message := p.Message
         CreateTime := p.CreateTime },
        (resolveField lib
          (resolveField lib (resolveField lib heap p.Title l).2 p.Value l).2 p.Ticker l).2) := by
  obtain ⟨title, value, ticker, message, createTime⟩ := p
  unfold processPushAt
  cases title <;> cases value <;> cases ticker <;> simp [resolveField]

/-- One assignment: the heap grows at its end, the pointer returned is in the
new heap, and for a field that points into the heap it denotes the resolution
of the template pointed to. -/
theorem resolveField_spec (lib : Lib) (heap : I18NHeap) (field : Option Nat) (l : String) :
    (∃ added, (resolveField lib heap field l).2 = heap ++ added) ∧
    ((resolveField lib heap field l).1.bind fun a => (resolveField lib heap field l).2[a]?) =
      (field.bind fun a => heap[a]?).bind fun t => parseI18n lib t l := by
  cases field with
  | none => exact ⟨⟨[], by simp [resolveField]⟩, by simp [resolveField]⟩
  | some ptr =>
    obtain ⟨h1, h2⟩ := parseI18nAt_spec lib heap ptr l
    exact ⟨h1, by simpa [resolveField] using h2⟩

theorem bind_getElem?_append (heap added : I18NHeap) (field : Option Nat)
    (hvalid : ∀ a, field = some a → a < heap.length) :
    (field.bind fun a => (heap ++ added)[a]?) = field.bind fun a => heap[a]? := by
  cases field with
  | none => rfl
  | some a =>
    have hlt := hvalid a rfl
    simp [List.getElem?_append_left hlt]

theorem bind_getElem?_some_lt (heap : I18NHeap) (field : Option Nat) (t : I18N)
    (h : (field.bind fun a => heap[a]?) = some t) : ∀ a, field = some a → a < heap.length := by
  intro a ha
  subst ha
  by_contra hge
  have h2 : heap[a]? = some t := h
  rw [List.getElem?_eq_none (by omega)] at h2
  exact absurd h2 (by simp)

theorem resolveField_valid (lib : Lib) (heap : I18NHeap) (field : Option Nat) (l : String) :
    ∀ a, (resolveField lib heap field l).1 = some a →
      a < (resolveField lib heap field l).2.length := by
  intro a ha
  cases field with
  | none => simp [resolveField] at ha
  | some ptr =>
    simp only [resolveField, parseI18nAt] at ha ⊢
    cases h1 : heap[ptr]? with
    | none => simp [h1] at ha
    | some t =>
      cases h2 : parseI18n lib t l with
      | none => simp [h1, h2] at ha
      | some r =>
        simp only [h1, h2, Option.some.injEq] at ha ⊢
        subst ha
        simp

/-- The pointer model of `processPush` against the value model: the heap only
grows at its end, and the payload returned denotes, in the new heap, what the
value model returns on the payload the argument denotes. -/
theorem processPushAt_spec (lib : Lib) (heap : I18NHeap) (p : PushContentPtr) (l : String)
    (hvalid : p.ValidIn heap) :
    (∃ added, (processPushAt lib heap p l).2 = heap ++ added) ∧
    (processPushAt lib heap p l).1.deref (processPushAt lib heap p l).2 =
      processPush lib (p.deref heap) l := by
  obtain ⟨hvT, hvV, hvK⟩ := hvalid
  obtain ⟨⟨a1, e1⟩, s1⟩ := resolveField_spec lib heap p.Title l
  obtain ⟨⟨a2, e2⟩, s2⟩ := resolveField_spec lib (resolveField lib heap p.Title l).2 p.Value l
  obtain ⟨⟨a3, e3⟩, s3⟩ := resolveField_spec lib
    (resolveField lib (resolveField lib heap p.Title l).2 p.Value l).2 p.Ticker l
  have v1 := resolveField_valid lib heap p.Title l
  have v2 := resolveField_valid lib (resolveField lib heap p.Title l).2 p.Value l
  rw [processPushAt_fields, processPush_fields]
  refine ⟨⟨a1 ++ (a2 ++ a3), ?_⟩, ?_⟩
  · simp only
    rw [e3, e2, e1, List.append_assoc, List.append_assoc]
  · simp only [PushContentPtr.deref]
    have hT : ((resolveField lib heap p.Title l).1.bind fun a =>
        (resolveField lib
          (resolveField lib (resolveField lib heap p.Title l).2 p.Value l).2 p.Ticker l).2[a]?) =
        (p.Title.bind fun a => heap[a]?).bind fun t => parseI18n lib t l := by
      rw [e3, e2, List.append_assoc, bind_getElem?_append _ _ _ v1, s1]
    have hV : ((resolveField lib (resolveField lib heap p.Title l).2 p.Value l).1.bind fun a =>
        (resolveField lib
          (resolveField lib (resolveField lib heap p.Title l).2 p.Value l).2 p.Ticker l).2[a]?) =
        (p.Value.bind fun a => heap[a]?).bind fun t => parseI18n lib t l := by
      rw [e3, bind_getElem?_append _ _ _ v2, s2, e1, bind_getElem?_append _ _ _ hvV]
    have hK : ((resolveField lib
          (resolveField lib (resolveField lib heap p.Title l).2 p.Value l).2 p.Ticker l).1.bind
        fun a => (resolveField lib
          (resolveField lib (resolveField lib heap p.Title l).2 p.Value l).2 p.Ticker l).2[a]?) =
        (p.Ticker.bind fun a => heap[a]?).bind fun t => parseI18n lib t l := by
      rw [s3, e2, e1, List.append_assoc, bind_getElem?_append _ _ _ hvK]
    rw [hT, hV, hK]

theorem deref_append (heap added : I18NHeap) (q : PushContentPtr) (hvalid : q.ValidIn heap) :
    q.deref (heap ++ added) = q.deref heap ∧ q.ValidIn (heap ++ added) := by
  obtain ⟨hvT, hvV, hvK⟩ := hvalid
  refine ⟨?_, ?_⟩
  · simp only [PushContentPtr.deref, bind_getElem?_append _ _ _ hvT,
      bind_getElem?_append _ _ _ hvV, bind_getElem?_append _ _ _ hvK]
  · simp only [PushContentPtr.ValidIn, List.length_append]
    exact ⟨fun a h => Nat.lt_add_right _ (hvT a h), fun a h => Nat.lt_add_right _ (hvV a h),
      fun a h => Nat.lt_add_right _ (hvK a h)⟩

/-- C21. `processPush p l` replaces each of `Title`, `Value`, `Ticker` that is
set in `p`, independently of the other two, by `parseI18n` of it at `l` (nil
when that resolution fails), keeps a nil field nil and keeps `Message` and
`CreateTime`; so a payload without the three is returned as it is. With the
pointers explicit (`q` the caller's payload, denoting `p` in the heap): the
call changes no template already in the heap, the caller's payload denotes `p`
afterwards as before, the payload returned denotes `processPush p l`, and a
second resolution of the same payload from the heap the first one left, at any
locale `l2`, denotes `processPush p l2`, for `l2 = l` the same output again. -/
theorem C21_processPush_frame (lib : Lib) (p : PushContent) (l : String) :
    ((processPush lib p l).Title = p.Title.bind fun t => parseI18n lib t l) ∧
    ((processPush lib p l).Value = p.Value.bind fun t => parseI18n lib t l) ∧
    ((processPush lib p l).Ticker = p.Ticker.bind fun t => parseI18n lib t l) ∧
    (processPush lib p l).Message = p.Message ∧
    (processPush lib p l).CreateTime = p.CreateTime ∧
    (p.Title = none → p.Value = none → p.Ticker = none → processPush lib p l = p) ∧
    ∀ (heap : I18NHeap) (q : PushContentPtr), q.ValidIn heap → q.deref heap = p →
      (∀ (a : Nat) (t : I18N), heap[a]? = some t →
        (processPushAt lib heap q l).2[a]? = some t) ∧
      q.deref (processPushAt lib heap q l).2 = p ∧
      (processPushAt lib heap q l).1.deref (processPushAt lib heap q l).2 =
        processPush lib p l ∧
      ∀ l2 : String,
        (processPushAt lib (processPushAt lib heap q l).2 q l2).1.deref
            (processPushAt lib (processPushAt lib heap q l).2 q l2).2 =
          processPush lib p l2 := by
  refine ⟨?_, ?_, ?_, ?_, ?_, ?_, ?_⟩
  · rw [processPush_fields]
  · rw [processPush_fields]
  · rw [processPush_fields]
  · rw [processPush_fields]
  · rw [processPush_fields]
  · intro h1 h2 h3
    obtain ⟨title, value, ticker, message, createTime⟩ := p
    simp only at h1 h2 h3
    subst h1 h2 h3
    rfl
  · intro heap q hvalid hq
    obtain ⟨⟨added, hadd⟩, hres⟩ := processPushAt_spec lib heap q l hvalid
    obtain ⟨hderef, hvalid2⟩ := deref_append heap added q hvalid
    rw [hq] at hres hderef
    refine ⟨?_, ?_, hres, ?_⟩
    · intro a t ha
      rw [hadd]
      exact getElem?_append_of_some heap added a t ha
    · rw [hadd, hderef]
    · intro l2
      rw [hadd]
      rw [(processPushAt_spec lib (heap ++ added) q l2 hvalid2).2, hderef]

theorem C21_processPush_frame_witness :
    examplePushPtr.ValidIn exampleHeap ∧
    (processPushAt scenarioLib exampleHeap examplePushPtr "fr").1.deref
        (processPushAt scenarioLib exampleHeap examplePushPtr "fr").2 =
      { Title := none, Value := some { Value := "Salut", Locales := [], Params := [] },
        Ticker := some { Value := "x", Locales := [], Params := [] },
        Message := "m", CreateTime := 7 } ∧
    examplePushPtr.deref (processPushAt scenarioLib exampleHeap examplePushPtr "fr").2 =
      examplePushPtr.deref exampleHeap ∧
    (processPushAt scenarioLib (processPushAt scenarioLib exampleHeap examplePushPtr "fr").2
          examplePushPtr "de").1.deref
        (processPushAt scenarioLib (processPushAt scenarioLib exampleHeap examplePushPtr "fr").2
          examplePushPtr "de").2 =
      { Title := none, Value := some { Value := "Hi", Locales := [], Params := [] },
        Ticker := none, Message := "m", CreateTime := 7 } :=
  have h := (C21_processPush_frame scenarioLib (examplePushPtr.deref exampleHeap) "fr").2.2.2.2.2.2
    exampleHeap examplePushPtr (by decide) rfl
  ⟨by decide, h.2.2.1.trans (by decide), h.2.1, (h.2.2.2 "de").trans (by decide)⟩

/-- C22, the code at the failing input. For the app id "0", the user id "602"
and the time 2020-01-14 14:45:45, `genTTDBSeq` calls `GenSequenceID` once, with
the expiry 10 and the key "msg_seq_0_60220200114144545": the user id and the
timestamp are joined without the separator, so the key is not the
"msg_seq_0_602_20200114144545" of the comment above the function. -/
theorem C22_sequence_key_without_separator :
    scenarioTime.Format20060102150405 = "20200114144545" ∧
    (genTTDBSeq (counterEnv 1) 0 "0" "602" scenarioTime).2.1 =
      [Call.GenSequenceID "msg_seq_0_60220200114144545" 10] ∧
    (genTTDBSeq (counterEnv 1) 0 "0" "602" scenarioTime).2.1 ≠
      [Call.GenSequenceID "msg_seq_0_602_20200114144545" 10] := by
  decide

theorem getOriginPushLoop_eq_find (deviceId : String) (overrides : List DeviceIdPush) :
    getOriginPushLoop deviceId overrides =
      (overrides.find? fun o => decide (deviceId ∈ o.DeviceIds)).map fun o => o.Push := by
  induction overrides with
  | nil => rfl
  | cons o rest ih =>
    by_cases h : deviceId ∈ o.DeviceIds
    · have hi := (getOriginPushIds_iff deviceId o.DeviceIds).2 h
      simp [getOriginPushLoop, hi, List.find?_cons, h]
    · have hi : ¬ getOriginPushIds deviceId o.DeviceIds = true := fun hc =>
        h ((getOriginPushIds_iff deviceId o.DeviceIds).1 hc)
      simp [getOriginPushLoop, hi, ih, List.find?_cons, h]

/-- `parseI18n` is the localization of a template in the specification. -/
theorem parseI18n_eq_specResolve (lib : Lib) (t : I18N) (l : String) :
    parseI18n lib t l = specResolve lib t l := by
  rw [parseI18n_eq_chosen]
  unfold specResolve
  cases hp : t.Params with
  | nil => simp
  | cons x xs => simp

theorem stampCreateTime_pushes (now : Int) (req : TransferMessageRequest) :
    (stampCreateTime now req).Push = req.Push.map (fun p => { p with CreateTime := now }) ∧
    (stampCreateTime now req).DeviceIdPushes =
      req.DeviceIdPushes.map fun o =>
        { o with Push := o.Push.map fun p => { p with CreateTime := now } } := by
  have hmap : ∀ l : List DeviceIdPush,
      (l.map fun deviceIdPush =>
        match deviceIdPush.Push with
        | some push => { deviceIdPush with Push := some { push with CreateTime := now } }
        | none => deviceIdPush) =
      l.map fun o => { o with Push := o.Push.map fun p => { p with CreateTime := now } } := by
    intro l
    apply List.map_congr_left
    intro o _
    obtain ⟨ids, push⟩ := o
    cases push <;> rfl
  obtain ⟨rid, mid, mt, md, push, overrides, mtn, app, dev, filters, lim, langs⟩ := req
  unfold stampCreateTime
  cases push <;> cases overrides <;> simp [hmap]

theorem specEffectivePush_stampCreateTime (now : Int) (req : TransferMessageRequest)
    (deviceId : String) :
    specEffectivePush (stampCreateTime now req) deviceId =
      (specEffectivePush req deviceId).map fun p => { p with CreateTime := now } := by
  obtain ⟨hpush, hover⟩ := stampCreateTime_pushes now req
  unfold specEffectivePush
  rw [hpush, hover, List.find?_map]
  have hfun : ((fun o : DeviceIdPush => decide (deviceId ∈ o.DeviceIds)) ∘
      fun o : DeviceIdPush =>
        { o with Push := o.Push.map fun p => { p with CreateTime := now } }) =
      fun o : DeviceIdPush => decide (deviceId ∈ o.DeviceIds) := rfl
  rw [hfun]
  cases List.find? (fun o : DeviceIdPush => decide (deviceId ∈ o.DeviceIds))
    req.DeviceIdPushes with
  | none => rfl
  | some o => rfl

/-- C7. For a request that passes validation, with the sequence generated and
a non-empty directory answer `L`, the fan-out goroutine is started on `L`;
from whatever state of the collaborators it runs, it runs to the end of `L`
and its `TransmitMessage` calls are, in the order of `L`, one per endpoint `w`
that `specDelivers` admits (no version limit or `isLimitVersion w limit` false,
and no forced language or the locale of `w` among them). Each call is
`specTransmission`: on the handle of `w`, with the receiver id, message id,
type, payload and app name of the request, the device id of `w`, and as push
the effective push of `w` (the push of the first override holding its device
id, else the default push) with the creation time of the entry, each template
of it resolved at the locale of `w` by the resolution order with its
parameters substituted; the empty push when none is configured. `ptypes.Is` is
constantly false, so every payload is non-chat. -/
theorem C7_fanout_transmissions {σ : Type} (lib : Lib) (cfg : Config) (env : Env σ) (st : σ)
    (now : Int) (tm : Time) (req : TransferMessageRequest) (c : Int)
    (hcfg : cfg.Service.DisableSendReliable = false) (hv : PassesValidation req)
    (hgen : (env.GenSequenceID st (seqKeyOf req.AppName req.ReceiverId tm)
      SeqExpireSeconds).1 = .ok c)
    (hpick : (env.PickConnectors
      (env.GenSequenceID st (seqKeyOf req.AppName req.ReceiverId tm) SeqExpireSeconds).2
      req.AppName req.ReceiverId req.DeviceIdentifer req.Filters).1 ≠ []) :
    ∃ task : FanOutTask,
      (TransferOnlineReliableMessage cfg env st now tm req).fanOut = some task ∧
      task.connectorWrappers = (env.PickConnectors
        (env.GenSequenceID st (seqKeyOf req.AppName req.ReceiverId tm) SeqExpireSeconds).2
        req.AppName req.ReceiverId req.DeviceIdentifer req.Filters).1 ∧
      ∀ st1 : σ,
        transmitCalls (runFanOut lib env st1 task).calls =
          (((env.PickConnectors
              (env.GenSequenceID st (seqKeyOf req.AppName req.ReceiverId tm)
                SeqExpireSeconds).2
              req.AppName req.ReceiverId req.DeviceIdentifer req.Filters).1).filter
            (specDelivers req)).map (specTransmission lib now req) ∧
        (runFanOut lib env st1 task).exit = .completed := by
  refine ⟨{ req := stampCreateTime now req,
            connectorWrappers := (env.PickConnectors
              (env.GenSequenceID st (seqKeyOf req.AppName req.ReceiverId tm)
                SeqExpireSeconds).2
              req.AppName req.ReceiverId req.DeviceIdentifer req.Filters).1 }, ?_, rfl, ?_⟩
  · rw [TransferOnlineReliableMessage_valid cfg env st now tm req hcfg hv,
      genTTDBSeq_ok env st _ _ tm c hgen]
    simp [hpick]
  · intro st1
    obtain ⟨h1, h2, -⟩ := fanOutLoop_transmits lib env (stampCreateTime now req)
      (env.PickConnectors
        (env.GenSequenceID st (seqKeyOf req.AppName req.ReceiverId tm) SeqExpireSeconds).2
        req.AppName req.ReceiverId req.DeviceIdentifer req.Filters).1 [] st1
    refine ⟨?_, h2⟩
    unfold runFanOut
    rw [h1]
    have hfun : specDelivers (stampCreateTime now req) = specDelivers req :=
      funext (specDelivers_stampCreateTime now req)
    have htr : specTransmit lib (stampCreateTime now req) = specTransmission lib now req := by
      funext w
      obtain ⟨f1, f2, f3, f4, f5, f6, -, -, -, -⟩ := stampCreateTime_fields now req
      have horigin : getOriginPush (stampCreateTime now req) w.DeviceID =
          specEffectivePush (stampCreateTime now req) w.DeviceID := by
        unfold getOriginPush specEffectivePush
        rw [getOriginPushLoop_eq_find]
        cases (stampCreateTime now req).DeviceIdPushes with
        | nil => simp
        | cons o rest =>
          cases List.find? (fun o => decide (w.DeviceID ∈ o.DeviceIds)) (o :: rest) with
          | none => simp
          | some x => simp
      have hlocal : ∀ p : PushContent, processPush lib p w.Locale = specLocalize lib p w.Locale := by
        intro p
        obtain ⟨title, value, ticker, message, createTime⟩ := p
        unfold processPush specLocalize
        cases title <;> cases value <;> cases ticker <;> simp [parseI18n_eq_specResolve]
      have hpush : specPush lib (stampCreateTime now req) w = specLocalizedPush lib now req w := by
        unfold specPush specLocalizedPush
        rw [horigin, specEffectivePush_stampCreateTime]
        cases specEffectivePush req w.DeviceID with
        | none => rfl
        | some p => exact hlocal _
      simp only [specTransmit, specTransmission, f1, f2, f3, f4, f5, f6, hpush]
    simp [transmitCalls, hfun, htr]

theorem C7_fanout_transmissions_witness :
    PassesValidation scenarioReq ∧ PassesValidation fanoutReq ∧
    ((TransferOnlineReliableMessage scenarioCfg fanoutEnv 0 5 scenarioTime
        fanoutReq).fanOut.map fun task => (runFanOut scenarioLib fanoutEnv 7 task).calls) =
      some ((fanoutEndpoints.filter (specDelivers fanoutReq)).map fun w =>
        Call.TransmitMessage (specTransmission scenarioLib 5 fanoutReq w).1
          (specTransmission scenarioLib 5 fanoutReq w).2) ∧
    (∃ task : FanOutTask,
      (TransferOnlineReliableMessage scenarioCfg scenarioEnv 0 5 scenarioTime
        scenarioReq).fanOut = some task ∧
      transmitCalls (runFanOut scenarioLib scenarioEnv 7 task).calls =
        [(2, { UserId := "42", MsgId := "m1", MsgType := 0, MsgData := none,
               Push := some { Title := none,
                              Value := some { Value := "Hello", Locales := [], Params := [] },
                              Ticker := none, Message := "", CreateTime := 5 },
               MsgTypeName := "", AppName := "0", DeviceIdentifer := "ios-1" })]) ∧
    ∃ task : FanOutTask,
      (TransferOnlineReliableMessage scenarioCfg fanoutEnv 0 5 scenarioTime
        fanoutReq).fanOut = some task ∧
      transmitCalls (runFanOut scenarioLib fanoutEnv 7 task).calls =
        [(2, { UserId := "42", MsgId := "m1", MsgType := 3,
               MsgData := some { TypeUrl := "type.x", Value := [1, 2] },
               Push := some { Title := some { Value := "Salut", Locales := [], Params := [] },
                              Value := some { Value := "Bonjour Sam", Locales := [],
                                              Params := [] },
                              Ticker := none, Message := "plain", CreateTime := 5 },
               MsgTypeName := "chat", AppName := "0", DeviceIdentifer := "ios-1" }),
         (3, { UserId := "42", MsgId := "m1", MsgType := 3,
               MsgData := some { TypeUrl := "type.x", Value := [1, 2] },
               Push := some { Title := none,
                              Value := some { Value := "Override", Locales := [],
                                              Params := [] },
                              Ticker := none, Message := "", CreateTime := 5 },
               MsgTypeName := "chat", AppName := "0", DeviceIdentifer := "ios-2" })] :=
  match C7_fanout_transmissions scenarioLib scenarioCfg scenarioEnv 0 5 scenarioTime
      scenarioReq 1 (by decide) (by decide) rfl (by decide),
    C7_fanout_transmissions scenarioLib scenarioCfg fanoutEnv 0 5 scenarioTime
      fanoutReq 1 (by decide) (by decide) rfl (by decide) with
  | ⟨t1, h1, _, r1⟩, ⟨t2, h2, _, r2⟩ =>
    ⟨by decide, by decide, by decide, ⟨t1, h1, (r1 7).1.trans (by decide)⟩,
      ⟨t2, h2, (r2 7).1.trans (by decide)⟩⟩

end Router
